import Mathlib

/-
  Verification of the factguardian conflict-detection core against its
  natural-language specification.

  The Python sources embedded here (shallowly, as pure Lean functions) are:
    backend/app/services/conflict_detector.py
    backend/app/services/progress_manager.py
    backend/app/services/lsh_filter.py      (priority scoring)
    backend/app/services/semantic_indexer.py (priority scoring)

  Conventions of the embedding:
    - Python str is Lean String; all character-level algorithms work on the
      underlying character list so that they evaluate by kernel reduction.
    - Python float is idealised as the rationals.
    - Python None-able dict fields become Option; dict .get defaults are the
      getD defaults used at each call site, exactly as in the source.
    - The process-wide hash() on strings (whose value Python does not fix)
      is a parameter of every definition that needs it.
    - Async orchestration: asyncio.gather with return_exceptions=True over a
      batch is order-preserving, so the per-pair outcomes are modelled as a
      pure function from the pair to an outcome and the batched loop as a
      fold over fixed-size chunks.
-/

namespace FactGuardian

/-! ## Character-level string utilities (Python semantics) -/

/-- Membership test for one character (Python `c in s` on a 1-char needle,
and the building block for substring search). -/
def charsContains (l : List Char) (c : Char) : Bool :=
  l.any (fun x => x == c)

/-- Boolean prefix test on character lists. -/
def isPrefixB : List Char → List Char → Bool
  | [], _ => true
  | _ :: _, [] => false
  | a :: as, b :: bs => a == b && isPrefixB as bs

/-- Boolean infix (substring) test on character lists: Python `needle in s`. -/
def isInfixB (p : List Char) : List Char → Bool
  | [] => p.isEmpty
  | l@(_ :: rest) => isPrefixB p l || isInfixB p rest

/-- Python `needle in s` for strings. -/
def containsSub (s pat : String) : Bool :=
  isInfixB pat.data s.data

/-- Python str.strip(): drop whitespace from both ends.  (Python also strips
some exotic Unicode spaces; the sources only ever meet ASCII whitespace and
fullwidth text without such spaces.) -/
def pyStrip (s : String) : String :=
  ⟨((s.data.dropWhile Char.isWhitespace).reverse.dropWhile Char.isWhitespace).reverse⟩

/-- Python str.lower() restricted to ASCII letters, which is all the source
applies it to (polarity tags). -/
def pyLower (s : String) : String :=
  ⟨s.data.map Char.toLower⟩

/-! Rational arithmetic, re-expressed through Rat.divInt so that all
executable definitions evaluate by kernel reduction (the library addition,
subtraction, multiplication and division on the rationals are marked
irreducible and block evaluation).  Each operation is proved equal to the
standard one below. -/

/-- Kernel-reducible rational addition. -/
def ratAdd (a b : ℚ) : ℚ := Rat.divInt (a.num * b.den + b.num * a.den) (a.den * b.den)

/-- Kernel-reducible rational subtraction. -/
def ratSub (a b : ℚ) : ℚ := Rat.divInt (a.num * b.den - b.num * a.den) (a.den * b.den)

/-- Kernel-reducible rational multiplication. -/
def ratMul (a b : ℚ) : ℚ := Rat.divInt (a.num * b.num) (a.den * b.den)

/-- Kernel-reducible rational division (0 when the divisor is 0, like x / 0
in the library; the sources only divide by values guarded positive). -/
def ratDiv (a b : ℚ) : ℚ := Rat.divInt (a.num * b.den) (a.den * b.num)

/-- Python abs on numbers, kept kernel-reducible. -/
def pyAbs (q : ℚ) : ℚ := if q < 0 then -q else q

/-- Python max on two numbers, kept kernel-reducible. -/
def pyMax (a b : ℚ) : ℚ := if a ≤ b then b else a

/-- Python min on two numbers, kept kernel-reducible. -/
def pyMin (a b : ℚ) : ℚ := if a ≤ b then a else b

/-- Value of a decimal digit character. -/
def digitVal (c : Char) : Nat := c.toNat - 48

/-- Natural number denoted by a digit run. -/
def digitsToNat (ds : List Char) : Nat :=
  ds.foldl (fun n c => 10 * n + digitVal c) 0

/-! ## The Fact data model (Python dict rows, fields as used by the source) -/

/-- A Python value stored under the "value" key: a number or a string. -/
inductive PyVal where
  | num (q : ℚ)
  | str (s : String)
deriving DecidableEq

/-- A fact dict as consumed by conflict_detector.py.  Every field that the
code reads through .get with a None default is an Option. -/
structure Fact where
  fact_id : Option String := none
  subject : Option String := none
  predicate : Option String := none
  obj : Option String := none
  value : Option PyVal := none
  time : Option String := none
  polarity : Option String := none
  type : Option String := none
  content : Option String := none
  original_text : Option String := none
  location : Option String := none
  confidence : Option ℚ := none
deriving DecidableEq

/-- Python `x or ""` over an optional string: None and "" both collapse. -/
def optStr (o : Option String) : String := o.getD ""

/-! ## Number extraction: re.findall(r"(-?\d+(?:\.\d+)?)", v)[0]

conflict_detector.num_of and semantic_indexer._extract_number share this
regex; both take the first match. -/

/-- Parse a number at a position known to start with a digit: greedy digit
run, then an optional fraction requiring at least one digit after the dot
(mirroring `\d+(?:\.\d+)?`). -/
def parseNumAt (l : List Char) : ℚ :=
  let intDs := l.takeWhile Char.isDigit
  let rest := l.dropWhile Char.isDigit
  match rest with
  | '.' :: r2 =>
    let fr := r2.takeWhile Char.isDigit
    if fr.isEmpty then (digitsToNat intDs : ℚ)
    else Rat.divInt (digitsToNat intDs * 10 ^ fr.length + digitsToNat fr) (10 ^ fr.length)
  | _ => (digitsToNat intDs : ℚ)

/-- Scan left to right for the first match of `-?\d+(?:\.\d+)?`. -/
def scanFirstNumber : List Char → Option ℚ
  | [] => none
  | c :: rest =>
    if c.isDigit then some (parseNumAt (c :: rest))
    else if c = '-' then
      match rest with
      | d :: _ => if d.isDigit then some (-(parseNumAt rest)) else scanFirstNumber rest
      | [] => none
    else scanFirstNumber rest

/-- conflict_detector.num_of: numbers pass through, strings are mined for
their first number, anything else is None. -/
def numOf : Option PyVal → Option ℚ
  | none => none
  | some (.num q) => some q
  | some (.str s) => scanFirstNumber s.data

/-! ## Structured-field candidate generation
(conflict_detector._generate_structured_pairs) -/

/-- key_of: the trimmed (subject, predicate, object) triple. -/
def keyOf (f : Fact) : String × String × String :=
  (pyStrip (optStr f.subject), pyStrip (optStr f.predicate), pyStrip (optStr f.obj))

/-- Insertion-ordered grouping, mirroring a Python dict of lists built with
setdefault: new keys append at the end, existing keys extend their list. -/
def insertGrouped {K : Type} [DecidableEq K] :
    List (K × List Fact) → K → Fact → List (K × List Fact)
  | [], k, f => [(k, [f])]
  | (k', fs) :: rest, k, f =>
    if k = k' then (k', fs ++ [f]) :: rest
    else (k', fs) :: insertGrouped rest k f

/-- groups.setdefault(key_of(f), []).append(f) over the fact list. -/
def groupBy {K : Type} [DecidableEq K] (key : Fact → K) (facts : List Fact) :
    List (K × List Fact) :=
  facts.foldl (fun m f => insertGrouped m (key f) f) []

/-- All i < j pairs of a list, in itertools.combinations order. -/
def pairsComb {α : Type} : List α → List (α × α)
  | [] => []
  | x :: xs => xs.map (fun y => (x, y)) ++ pairsComb xs

/-- Python `"%" in str(value)`: str(None) and the repr of a number never
contain a percent sign, so only string values can. -/
def valueHasPercent : Option PyVal → Bool
  | some (.str s) => charsContains s.data '%'
  | _ => false

/-- has_percent_a: a percent sign in str(value) or in the original text. -/
def hasPercentMark (f : Fact) : Bool :=
  valueHasPercent f.value || charsContains (optStr f.original_text).data '%'

/-- Normalised polarity: `(f.get("polarity") or "affirmative").lower()`. -/
def polNorm (f : Fact) : String :=
  let p := optStr f.polarity
  pyLower (if p = "" then "affirmative" else p)

/-- The numeric-divergence test of the structured stage, for two facts that
both carry numeric values (source lines 342-355). -/
def numericDiverges (fa fb : Fact) (va vb : ℚ) : Bool :=
  if hasPercentMark fa || hasPercentMark fb then
    decide (10 ≤ pyAbs (ratSub va vb))
  else
    decide ((0 < pyMin va vb ∧ Rat.divInt 1 5 < ratDiv (pyAbs (ratSub va vb)) (pyMax va vb))
      ∨ 1 < pyAbs (ratSub va vb))

/-- The appends one (i, j) iteration of the structured stage performs, in
source order: polarity check, numeric check, time check.  A pair can be
appended more than once here; deduplication happens later in _add_pair. -/
def checksFor (fa fb : Fact) : List (Fact × Fact) :=
  (if polNorm fa ≠ polNorm fb then [(fa, fb)] else []) ++
  (match numOf fa.value, numOf fb.value with
   | some va, some vb => if numericDiverges fa fb va vb then [(fa, fb)] else []
   | _, _ => []) ++
  (let ta := pyStrip (optStr fa.time)
   let tb := pyStrip (optStr fb.time)
   if ta ≠ "" ∧ tb ≠ "" ∧ ta ≠ tb then [(fa, fb)] else [])

/-- The flattened stream of appends of the structured stage, before the
running limit cut: groups in insertion order, in-group pairs in
combination order, checks in source order. -/
def structuredStream (facts : List Fact) : List (Fact × Fact) :=
  ((groupBy keyOf facts).map (fun g =>
    if g.2.length < 2 then []
    else ((pairsComb g.2).map (fun p => checksFor p.1 p.2)).flatten)).flatten

/-- The running early-return at the limit: after each append, if the
accumulated length has reached the limit, stop and return. -/
def appendLimited {α : Type} (limit : Nat) : List α → List α → List α
  | acc, [] => acc
  | acc, x :: rest =>
    let acc' := acc ++ [x]
    if limit ≤ acc'.length then acc' else appendLimited limit acc' rest

/-- _generate_structured_pairs facts limit. -/
def genStructuredPairs (facts : List Fact) (limit : Nat) : List (Fact × Fact) :=
  appendLimited limit [] (structuredStream facts)

/-! ## Keyword and pattern driven candidates
(conflict_detector._generate_keyword_based_pairs) -/

/-- The searchable text of a fact: content and original text joined by a
space (the text_list entries of the source). -/
def factText (f : Fact) : String :=
  optStr f.content ++ " " ++ optStr f.original_text

/-- has_any: does the text contain any of the keywords. -/
def hasAny (s : String) (kws : List String) : Bool :=
  kws.any (fun kw => containsSub s kw)

/-- find: all facts whose text matches any keyword. -/
def findMatching (facts : List Fact) (kws : List String) : List Fact :=
  facts.filter (fun f => hasAny (factText f) kws)

/-- pairs_for: the cartesian product of the side A and side B matches. -/
def pairsFor (facts : List Fact) (kwsA kwsB : List String) : List (Fact × Fact) :=
  (findMatching facts kwsA).flatMap (fun fa =>
    (findMatching facts kwsB).map (fun fb => (fa, fb)))

/-- One non-overlapping match attempt of `\d+(?:\.\d+)?%` at a position:
greedy digits, optional dot with at least one digit, then a percent sign;
returns the value and the remaining characters after the percent sign. -/
def pctMatchAt (l : List Char) : Option (ℚ × List Char) :=
  let ds := l.takeWhile Char.isDigit
  let r1 := l.dropWhile Char.isDigit
  match r1 with
  | '.' :: r2 =>
    match r2.dropWhile Char.isDigit with
    | '%' :: r4 =>
      if (r2.takeWhile Char.isDigit).isEmpty then none
      else some (Rat.divInt
        (digitsToNat ds * 10 ^ (r2.takeWhile Char.isDigit).length +
          digitsToNat (r2.takeWhile Char.isDigit))
        (10 ^ (r2.takeWhile Char.isDigit).length), r4)
    | _ => none
  | '%' :: r4 => some ((digitsToNat ds : ℚ), r4)
  | _ => none

theorem length_dropWhile_le {α : Type} (p : α → Bool) (l : List α) :
    (l.dropWhile p).length ≤ l.length := by
  induction l with
  | nil => simp [List.dropWhile]
  | cons a l ih =>
    rw [List.dropWhile]
    cases p a
    · simp
    · simpa using Nat.le_succ_of_le ih

theorem pctMatchAt_some_lt {l r : List Char} {q : ℚ}
    (h : pctMatchAt l = some (q, r)) : r.length < l.length := by
  rw [pctMatchAt] at h
  split at h
  case _ r2 heq =>
    have h2 : r2.length < l.length := by
      have := length_dropWhile_le Char.isDigit l
      rw [heq] at this
      simpa using this
    split at h
    case _ r4 heq2 =>
      split at h
      · exact absurd h (by simp)
      · have h4 : r4.length < r2.length + 1 := by
          have := length_dropWhile_le Char.isDigit r2
          rw [heq2] at this
          simp at this
          omega
        cases h
        omega
    case _ => exact absurd h (by simp)
  case _ r4 heq =>
    have := length_dropWhile_le Char.isDigit l
    rw [heq] at this
    cases h
    simpa using Nat.lt_of_lt_of_le (Nat.lt_succ_self _) this
  case _ => exact absurd h (by simp)

/-- re.findall over the text: scan left to right, on a failed start advance
one character, on success continue after the match. -/
def percentScan : List Char → List ℚ
  | [] => []
  | c :: rest =>
    if c.isDigit then
      match h : pctMatchAt (c :: rest) with
      | some (q, r4) => q :: percentScan r4
      | none => percentScan rest
    else percentScan rest
termination_by l => l.length
decreasing_by
  · exact pctMatchAt_some_lt h
  · simp
  · simp

/-- percent_values: all `\d+(?:\.\d+)?%` matches in a text. -/
def percentValues (s : String) : List ℚ :=
  percentScan s.data

/-- The fixed antonymic keyword catalogue (source lines 399-514), entries in
source order, with the renovation percent sub-rule in its source position. -/
def keywordCandidates (facts : List Fact) : List (Fact × Fact) :=
  pairsFor facts
    ["落实国家及省级政策", "符合政策", "落实政策", "符合要求"]
    ["不符", "未达到指南要求", "修订版", "2024年修订版"] ++
  pairsFor facts
    ["已完成协调", "协调工作已完成"]
    ["居民反对", "延迟推进", "隐私", "延迟安装"] ++
  pairsFor facts
    ["无资金缺口", "资金周转正常"]
    ["停工风险", "仅到位", "资金缺口", "阶段性资金缺口可控"] ++
  pairsFor facts
    ["可能导致项目整体竣工时间延迟至2026年4月", "可能延迟至2026年4月"]
    ["调整为2026年3月20日", "3月底前投入试运行", "2026年3月20日"] ++
  pairsFor facts
    ["医疗预约闭环服务", "闭环服务"]
    ["无法与", "无法对接", "仍需线下排队"] ++
  pairsFor facts
    ["总部位于", "总部设在", "注册地"]
    ["总部", "地点", "位于", "迁往"] ++
  pairsFor facts
    ["零裁员", "不裁员", "增加员工", "招聘"]
    ["裁员", "裁撤", "离职", "减少岗位", "重组"] ++
  pairsFor facts
    ["营收", "收入", "利润", "亏损", "财务", "业绩"]
    ["营收", "收入", "利润", "亏损", "财务", "业绩"] ++
  pairsFor facts
    ["零排放", "碳中和", "环保", "绿色", "减少排放"]
    ["排放增加", "污染", "未达到", "推迟", "增加废弃物"] ++
  pairsFor facts
    ["制造", "产地", "生产线", "工厂"]
    ["制造", "产地", "生产线", "工厂", "转移"] ++
  pairsFor facts
    ["增长", "上升", "提高", "增加", "攀升"]
    ["下降", "下滑", "减少", "降低", "缩减", "跌落"] ++
  pairsFor facts
    ["未发生", "零事故", "合规", "遵守", "安全", "保护"]
    ["泄露", "违规", "事故", "失败", "违反", "被罚"] ++
  pairsFor facts
    ["前期筹备工作已全部完成"]
    ["未办理施工许可证", "未办结"] ++
  ((pairsComb (facts.filter (fun f => containsSub (factText f) "装修"))).filter
    (fun p =>
      let pa := percentValues (factText p.1)
      let pb := percentValues (factText p.2)
      !pa.isEmpty && !pb.isEmpty &&
        pa.any (fun a => pb.any (fun b => 15 ≤ pyAbs (ratSub a b))))) ++
  pairsFor facts
    ["全方位安全防护网络", "覆盖社区出入口、楼道、停车场"]
    ["识别成功率仅", "无法实现实时画面传输", "无法实时传输"]

/-! ## Pair identity and deduplication (_add_pair and the keyword dedup) -/

/-- Lexicographic strict comparison on code points, the Python string
ordering (the library String order does not kernel-reduce). -/
def charsLt : List Char → List Char → Bool
  | [], [] => false
  | [], _ :: _ => true
  | _ :: _, [] => false
  | a :: as, b :: bs =>
    if a.val < b.val then true
    else if b.val < a.val then false
    else charsLt as bs

/-- Python `a <= b` on strings. -/
def strLe (a b : String) : Bool :=
  !(charsLt b.data a.data)

/-- The dedup identity of a fact: `str(f.get("fact_id") or hash(f.get("content", "")))`
with the process hash function h as a parameter. -/
def pid (h : String → Int) (f : Fact) : String :=
  match f.fact_id with
  | some s => if s = "" then toString (h (optStr f.content)) else s
  | none => toString (h (optStr f.content))

/-- The canonical unordered key of a pair: the two ids sorted. -/
def pairKey (h : String → Int) (fa fb : Fact) : String × String :=
  let ida := pid h fa
  let idb := pid h fb
  if strLe ida idb then (ida, idb) else (idb, ida)

/-- The dedup-and-stop-at-limit loop closing _generate_keyword_based_pairs
(source lines 516-529). -/
def dedupLimited (h : String → Int) (limit : Nat) :
    List (String × String) → List (Fact × Fact) → List (Fact × Fact) → List (Fact × Fact)
  | _, acc, [] => acc
  | seen, acc, p :: rest =>
    let key := pairKey h p.1 p.2
    if key ∈ seen then dedupLimited h limit seen acc rest
    else
      let acc' := acc ++ [p]
      if limit ≤ acc'.length then acc'
      else dedupLimited h limit (key :: seen) acc' rest

/-- _generate_keyword_based_pairs facts limit. -/
def genKeywordPairs (h : String → Int) (facts : List Fact) (limit : Nat) :
    List (Fact × Fact) :=
  dedupLimited h limit [] [] (keywordCandidates facts)

/-! ## The four-stage generator (_generate_comparison_pairs with _add_pair) -/

/-- The running state of one generation call: the output pair list and the
seen set of canonical keys. -/
structure GenState where
  pairs : List (Fact × Fact)
  seen : List (String × String)
deriving DecidableEq

/-- _add_pair: append the pair unless its canonical key was seen; returns
the new state and whether the pair was added. -/
def addPair (h : String → Int) (gs : GenState) (p : Fact × Fact) : GenState × Bool :=
  let key := pairKey h p.1 p.2
  if key ∈ gs.seen then (gs, false)
  else ({ pairs := gs.pairs ++ [p], seen := key :: gs.seen }, true)

/-- One stage of _generate_comparison_pairs: feed candidates through
_add_pair, returning early (flag true) once the cap is reached.  In the
structured and keyword stages the cap test runs only after a successful
add (checkAlways false); in the type-group and cross-type stages the source
also re-tests the cap after a skipped duplicate (checkAlways true). -/
def addSeq (h : String → Int) (maxPairs : Nat) (checkAlways : Bool) :
    GenState → List (Fact × Fact) → GenState × Bool
  | gs, [] => (gs, false)
  | gs, p :: rest =>
    if ((addPair h gs p).2 || checkAlways) &&
        decide (maxPairs ≤ (addPair h gs p).1.pairs.length) then ((addPair h gs p).1, true)
    else addSeq h maxPairs checkAlways (addPair h gs p).1 rest

/-- fact.get("type", "未知"), the grouping key of the fallback stages. -/
def typeOf (f : Fact) : String :=
  f.type.getD "未知"

/-- Stage 3 candidates: all same-type pairs, groups in first-seen order. -/
def typeGroupCandidates (facts : List Fact) : List (Fact × Fact) :=
  ((groupBy typeOf facts).map (fun g =>
    if 2 ≤ g.2.length then pairsComb g.2 else [])).flatten

/-- facts_by_type.get(k, []). -/
def groupGet (m : List (String × List Fact)) (k : String) : List Fact :=
  match m with
  | [] => []
  | (k', fs) :: rest => if k' = k then fs else groupGet rest k

/-- The high-value cross-type list of stage 4. -/
def dataTypes : List String := ["数据", "日期", "结论"]

/-- Stage 4 candidates: ordered cross products of distinct high-value types. -/
def crossTypeCandidates (facts : List Fact) : List (Fact × Fact) :=
  let m := groupBy typeOf facts
  (dataTypes.map (fun ta =>
    (dataTypes.map (fun tb =>
      if ta ≠ tb then
        (groupGet m ta).flatMap (fun fa => (groupGet m tb).map (fun fb => (fa, fb)))
      else [])).flatten)).flatten

/-- _generate_comparison_pairs: the four stages in precedence order, each
stopping the whole generation once the cap is reached. -/
def genComparisonPairs (h : String → Int) (facts : List Fact) (maxPairs : Nat) :
    List (Fact × Fact) :=
  let r1 := addSeq h maxPairs false ⟨[], []⟩ (genStructuredPairs facts maxPairs)
  if r1.2 then r1.1.pairs else
  let r2 := addSeq h maxPairs false r1.1 (genKeywordPairs h facts maxPairs)
  if r2.2 then r2.1.pairs else
  let r3 := addSeq h maxPairs true r2.1 (typeGroupCandidates facts)
  if r3.2 then r3.1.pairs else
  (addSeq h maxPairs true r3.1 (crossTypeCandidates facts)).1.pairs

/-! ## The kernel-reducible arithmetic agrees with the standard arithmetic -/

theorem den_cast_ne_zero (a : ℚ) : ((a.den : ℚ)) ≠ 0 := by
  exact_mod_cast a.den_nz

theorem ratAdd_eq (a b : ℚ) : ratAdd a b = a + b := by
  rw [ratAdd, Rat.divInt_eq_div]
  push_cast
  conv_rhs => rw [← Rat.num_div_den a, ← Rat.num_div_den b]
  rw [div_add_div _ _ (den_cast_ne_zero a) (den_cast_ne_zero b),
    mul_comm ((b.num : ℚ)) ((a.den : ℚ))]

theorem ratSub_eq (a b : ℚ) : ratSub a b = a - b := by
  rw [ratSub, Rat.divInt_eq_div]
  push_cast
  conv_rhs => rw [← Rat.num_div_den a, ← Rat.num_div_den b]
  rw [div_sub_div _ _ (den_cast_ne_zero a) (den_cast_ne_zero b),
    mul_comm ((b.num : ℚ)) ((a.den : ℚ))]

theorem ratMul_eq (a b : ℚ) : ratMul a b = a * b := by
  rw [ratMul, Rat.divInt_eq_div]
  push_cast
  conv_rhs => rw [← Rat.num_div_den a, ← Rat.num_div_den b]
  rw [div_mul_div_comm]

theorem ratDiv_eq (a b : ℚ) : ratDiv a b = a / b := by
  rw [ratDiv, Rat.divInt_eq_div]
  push_cast
  conv_rhs => rw [← Rat.num_div_den a, ← Rat.num_div_den b]
  rw [div_div_eq_mul_div, div_mul_eq_mul_div, div_div]

theorem pyAbs_eq (q : ℚ) : pyAbs q = |q| := by
  rw [pyAbs]
  split
  · exact (abs_of_neg (by assumption)).symm
  · exact (abs_of_nonneg (not_lt.mp (by assumption))).symm

theorem pyMin_eq (a b : ℚ) : pyMin a b = min a b := by
  rw [pyMin, min_def]

theorem pyMax_eq (a b : ℚ) : pyMax a b = max a b := by
  rw [pyMax, max_def]

/-! ## Claims C2 and C3: cap and dedup invariants of the generator -/

theorem addPair_skip {h : String → Int} {gs : GenState} {p : Fact × Fact}
    (hk : pairKey h p.1 p.2 ∈ gs.seen) : addPair h gs p = (gs, false) := by
  simp [addPair, hk]

theorem addPair_add {h : String → Int} {gs : GenState} {p : Fact × Fact}
    (hk : pairKey h p.1 p.2 ∉ gs.seen) :
    addPair h gs p = (⟨gs.pairs ++ [p], pairKey h p.1 p.2 :: gs.seen⟩, true) := by
  simp [addPair, hk]

theorem addSeq_length (h : String → Int) (maxPairs : Nat) (ca : Bool) :
    ∀ (l : List (Fact × Fact)) (gs : GenState), gs.pairs.length < maxPairs →
      ((addSeq h maxPairs ca gs l).2 = true →
        (addSeq h maxPairs ca gs l).1.pairs.length ≤ maxPairs) ∧
      ((addSeq h maxPairs ca gs l).2 = false →
        (addSeq h maxPairs ca gs l).1.pairs.length < maxPairs) := by
  intro l
  induction l with
  | nil =>
    intro gs hlt
    refine ⟨fun hflag => ?_, fun _ => hlt⟩
    simp [addSeq] at hflag
  | cons p rest ih =>
    intro gs hlt
    rw [addSeq]
    by_cases hk : pairKey h p.1 p.2 ∈ gs.seen
    · have hd : decide (maxPairs ≤ gs.pairs.length) = false :=
        decide_eq_false (by omega)
      simp only [addPair_skip hk, hd, Bool.and_false, Bool.false_eq_true, if_false, ite_false]
      exact ih gs hlt
    · simp only [addPair_add hk]
      by_cases hc : maxPairs ≤ gs.pairs.length + 1
      · have hd : decide (maxPairs ≤ (gs.pairs ++ [p]).length) = true := by
          simp
          omega
        simp only [Bool.true_or, Bool.true_and, hd, if_true, ite_true]
        refine ⟨fun _ => ?_, fun hflag => ?_⟩
        · simp
          omega
        · simp at hflag
      · have hd : decide (maxPairs ≤ (gs.pairs ++ [p]).length) = false := by
          simp
          omega
        simp only [Bool.true_or, Bool.true_and, hd, Bool.false_eq_true, if_false, ite_false]
        exact ih _ (by simp; omega)

/-- Claim C2: for every fact list and every positive cap, the generator
returns at most maxPairs candidate pairs. -/
theorem C2_max_pairs_cap (h : String → Int) (facts : List Fact) (maxPairs : Nat)
    (hpos : 0 < maxPairs) :
    (genComparisonPairs h facts maxPairs).length ≤ maxPairs := by
  rw [genComparisonPairs]
  have s1 := addSeq_length h maxPairs false (genStructuredPairs facts maxPairs)
    ⟨[], []⟩ (by simpa using hpos)
  cases h1 : (addSeq h maxPairs false ⟨[], []⟩ (genStructuredPairs facts maxPairs)).2 with
  | true => simp only [h1, if_true, ite_true]; exact s1.1 h1
  | false =>
    have hlt1 := s1.2 h1
    simp only [h1, Bool.false_eq_true, if_false, ite_false]
    have s2 := addSeq_length h maxPairs false (genKeywordPairs h facts maxPairs) _ hlt1
    cases h2 : (addSeq h maxPairs false
        (addSeq h maxPairs false ⟨[], []⟩ (genStructuredPairs facts maxPairs)).1
        (genKeywordPairs h facts maxPairs)).2 with
    | true => simp only [h2, if_true, ite_true]; exact s2.1 h2
    | false =>
      have hlt2 := s2.2 h2
      simp only [h2, Bool.false_eq_true, if_false, ite_false]
      have s3 := addSeq_length h maxPairs true (typeGroupCandidates facts) _ hlt2
      cases h3 : (addSeq h maxPairs true
          (addSeq h maxPairs false
            (addSeq h maxPairs false ⟨[], []⟩ (genStructuredPairs facts maxPairs)).1
            (genKeywordPairs h facts maxPairs)).1
          (typeGroupCandidates facts)).2 with
      | true => simp only [h3, if_true, ite_true]; exact s3.1 h3
      | false =>
        have hlt3 := s3.2 h3
        simp only [h3, Bool.false_eq_true, if_false, ite_false]
        have s4 := addSeq_length h maxPairs true (crossTypeCandidates facts) _ hlt3
        cases h4 : (addSeq h maxPairs true
            (addSeq h maxPairs true
              (addSeq h maxPairs false
                (addSeq h maxPairs false ⟨[], []⟩ (genStructuredPairs facts maxPairs)).1
                (genKeywordPairs h facts maxPairs)).1
              (typeGroupCandidates facts)).1
            (crossTypeCandidates facts)).2 with
        | true => exact s4.1 h4
        | false => exact Nat.le_of_lt (s4.2 h4)

/-- A fact list on which the witness evaluates the generator: two facts of a
shared type, so the type-group stage yields one pair. -/
def wFactA : Fact := { fact_id := some "a", type := some "T" }

/-- Companion fact for the cap witness. -/
def wFactB : Fact := { fact_id := some "b", type := some "T" }

/-- Witness for claim C2 at a concrete input. -/
theorem C2_max_pairs_cap_witness :
    0 < 1 ∧ (genComparisonPairs (fun _ => 0) [wFactA, wFactB] 1).length ≤ 1 :=
  ⟨by decide, C2_max_pairs_cap (fun _ => 0) [wFactA, wFactB] 1 (by decide)⟩

/-- The dedup invariant carried through the stages: output keys are distinct
and every output key is recorded in the seen set. -/
def goodState (h : String → Int) (gs : GenState) : Prop :=
  (gs.pairs.map (fun p => pairKey h p.1 p.2)).Nodup ∧
  ∀ k ∈ gs.pairs.map (fun p => pairKey h p.1 p.2), k ∈ gs.seen

theorem addSeq_good (h : String → Int) (maxPairs : Nat) (ca : Bool) :
    ∀ (l : List (Fact × Fact)) (gs : GenState), goodState h gs →
      goodState h (addSeq h maxPairs ca gs l).1 := by
  intro l
  induction l with
  | nil => intro gs hg; simpa [addSeq] using hg
  | cons p rest ih =>
    intro gs hg
    rw [addSeq]
    by_cases hk : pairKey h p.1 p.2 ∈ gs.seen
    · simp only [addPair_skip hk]
      split
      · exact hg
      · exact ih gs hg
    · simp only [addPair_add hk]
      have hg' : goodState h ⟨gs.pairs ++ [p], pairKey h p.1 p.2 :: gs.seen⟩ := by
        obtain ⟨hnd, hsub⟩ := hg
        refine ⟨?_, ?_⟩
        · simp only [List.map_append, List.map_cons, List.map_nil, List.nodup_append]
          refine ⟨hnd, List.nodup_singleton _, ?_⟩
          intro k hkmem
          simp only [List.mem_singleton]
          intro hkeq
          exact hk (hkeq ▸ hsub k hkmem)
        · intro k hkmem
          simp only [List.map_append, List.map_cons, List.map_nil,
            List.mem_append, List.mem_singleton] at hkmem
          rcases hkmem with hkmem | hkeq
          · exact List.mem_cons_of_mem _ (hsub k hkmem)
          · simp [hkeq]
      split
      · exact hg'
      · exact ih _ hg'

/-- Claim C3: across all four generation strategies, no unordered pair of
fact ids (canonicalised by sorting, with a content hash as surrogate id for
facts without an id) appears twice in the generator output. -/
theorem C3_no_duplicate_pairs (h : String → Int) (facts : List Fact) (maxPairs : Nat) :
    ((genComparisonPairs h facts maxPairs).map (fun p => pairKey h p.1 p.2)).Nodup := by
  rw [genComparisonPairs]
  have g0 : goodState h ⟨[], []⟩ := by simp [goodState]
  have g1 := addSeq_good h maxPairs false (genStructuredPairs facts maxPairs) ⟨[], []⟩ g0
  cases h1 : (addSeq h maxPairs false ⟨[], []⟩ (genStructuredPairs facts maxPairs)).2 with
  | true => simp only [h1, if_true, ite_true]; exact g1.1
  | false =>
    simp only [h1, Bool.false_eq_true, if_false, ite_false]
    have g2 := addSeq_good h maxPairs false (genKeywordPairs h facts maxPairs) _ g1
    cases h2 : (addSeq h maxPairs false
        (addSeq h maxPairs false ⟨[], []⟩ (genStructuredPairs facts maxPairs)).1
        (genKeywordPairs h facts maxPairs)).2 with
    | true => simp only [h2, if_true, ite_true]; exact g2.1
    | false =>
      simp only [h2, Bool.false_eq_true, if_false, ite_false]
      have g3 := addSeq_good h maxPairs true (typeGroupCandidates facts) _ g2
      cases h3 : (addSeq h maxPairs true
          (addSeq h maxPairs false
            (addSeq h maxPairs false ⟨[], []⟩ (genStructuredPairs facts maxPairs)).1
            (genKeywordPairs h facts maxPairs)).1
          (typeGroupCandidates facts)).2 with
      | true => simp only [h3, if_true, ite_true]; exact g3.1
      | false =>
        simp only [h3, Bool.false_eq_true, if_false, ite_false]
        exact (addSeq_good h maxPairs true (crossTypeCandidates facts) _ g3).1

/-! ## Claim C1: the numeric divergence rule of the structured stage -/

/-- Two facts sharing the trimmed key ("S", "P", "O"), affirmative polarity,
no time and no percent mark, so that only the numeric rule can fire. -/
def mkNumFact (i : String) (v : ℚ) : Fact :=
  { fact_id := some i, subject := some "S", predicate := some "P", obj := some "O",
    value := some (.num v), polarity := some "affirmative" }

theorem polNorm_mkNumFact (i : String) (v : ℚ) :
    polNorm (mkNumFact i v) = "affirmative" := rfl

theorem keyOf_mkNumFact (i : String) (v : ℚ) :
    keyOf (mkNumFact i v) = ("S", "P", "O") := rfl

theorem hasPercentMark_mkNumFact (i : String) (v : ℚ) :
    hasPercentMark (mkNumFact i v) = false := rfl

theorem numOf_mkNumFact (i : String) (v : ℚ) :
    numOf (mkNumFact i v).value = some v := rfl

theorem timeStr_mkNumFact (i : String) (v : ℚ) :
    pyStrip (optStr (mkNumFact i v).time) = "" := rfl

theorem checksFor_mkNumFact (i j : String) (v w : ℚ) :
    checksFor (mkNumFact i v) (mkNumFact j w) =
      if numericDiverges (mkNumFact i v) (mkNumFact j w) v w
      then [(mkNumFact i v, mkNumFact j w)] else [] := by
  rw [checksFor]
  rw [polNorm_mkNumFact, polNorm_mkNumFact]
  simp [numOf_mkNumFact, timeStr_mkNumFact]

theorem structuredStream_two (v w : ℚ) :
    structuredStream [mkNumFact "a" v, mkNumFact "b" w] =
      checksFor (mkNumFact "a" v) (mkNumFact "b" w) := by
  simp [structuredStream, groupBy, insertGrouped, keyOf_mkNumFact, pairsComb]

theorem appendLimited_singleton {α : Type} (limit : Nat) (x : α) :
    appendLimited limit [] [x] = [x] := by
  simp [appendLimited]

theorem genStructuredPairs_two (v w : ℚ) (limit : Nat) :
    genStructuredPairs [mkNumFact "a" v, mkNumFact "b" w] limit =
      if numericDiverges (mkNumFact "a" v) (mkNumFact "b" w) v w
      then [(mkNumFact "a" v, mkNumFact "b" w)] else [] := by
  rw [genStructuredPairs, structuredStream_two, checksFor_mkNumFact]
  cases hd : numericDiverges (mkNumFact "a" v) (mkNumFact "b" w) v w
  · simp [hd, appendLimited]
  · simp [hd, appendLimited_singleton]

theorem numericDiverges_mkNumFact_iff (v w : ℚ) :
    numericDiverges (mkNumFact "a" v) (mkNumFact "b" w) v w = true ↔
      ((0 < min v w ∧ 1/5 < |v - w| / max v w) ∨ 1 < |v - w|) := by
  rw [numericDiverges]
  rw [hasPercentMark_mkNumFact, hasPercentMark_mkNumFact]
  simp only [Bool.or_self, Bool.false_or, if_false, Bool.false_eq_true, ite_false,
    decide_eq_true_eq, ratSub_eq, ratDiv_eq, pyAbs_eq, pyMin_eq, pyMax_eq, Rat.divInt_eq_div]
  norm_num

/-- Claim C1 (amended): in the structured-field stage, for two facts sharing
the trimmed (subject, predicate, object) key, both carrying numeric values
with no percent sign, with equal polarities and empty times, the numeric rule
emits the pair exactly when (both values are positive and the relative
difference exceeds 0.2) or the absolute difference exceeds 1.0.  With values
100 and 130 (relative difference 0.3) the pair is included, and with values
100 and 105 the pair is ALSO included, because the absolute difference 5
exceeds 1.0 (the written claim wrongly said this pair is excluded by the
numeric rule). -/
theorem C1_numeric_divergence_rule (v w : ℚ) (limit : Nat) :
    ((mkNumFact "a" v, mkNumFact "b" w) ∈
        genStructuredPairs [mkNumFact "a" v, mkNumFact "b" w] limit ↔
      ((0 < min v w ∧ 1/5 < |v - w| / max v w) ∨ 1 < |v - w|)) ∧
    (mkNumFact "a" 100, mkNumFact "b" 130) ∈
      genStructuredPairs [mkNumFact "a" 100, mkNumFact "b" 130] 300 ∧
    (mkNumFact "a" 100, mkNumFact "b" 105) ∈
      genStructuredPairs [mkNumFact "a" 100, mkNumFact "b" 105] 300 := by
  refine ⟨?_, by decide, by decide⟩
  rw [genStructuredPairs_two, ← numericDiverges_mkNumFact_iff]
  cases hd : numericDiverges (mkNumFact "a" v) (mkNumFact "b" w) v w <;> simp [hd]

/-! ## A stable sort that evaluates by kernel reduction.  Python list.sort
is stable; stable insertion (each element placed after existing equals)
models it and, unlike the library mergeSort, reduces in the kernel. -/

/-- Insert x after every element y with le y x. -/
def insertSorted {α : Type} (le : α → α → Bool) (x : α) : List α → List α
  | [] => [x]
  | y :: ys => if le y x then y :: insertSorted le x ys else x :: y :: ys

/-- Stable insertion sort under the boolean relation le. -/
def pySortBy {α : Type} (le : α → α → Bool) (l : List α) : List α :=
  l.foldl (fun acc x => insertSorted le x acc) []

theorem mem_insertSorted {α : Type} (le : α → α → Bool) (x : α) :
    ∀ (l : List α) (a : α), a ∈ insertSorted le x l ↔ a = x ∨ a ∈ l := by
  intro l
  induction l with
  | nil => intro a; simp [insertSorted]
  | cons y ys ih =>
    intro a
    rw [insertSorted]
    by_cases hle : le y x = true
    · simp only [hle, if_true, ite_true, List.mem_cons, ih]
      tauto
    · simp only [hle, Bool.false_eq_true, if_false, ite_false, List.mem_cons]

theorem insertSorted_sorted {α : Type} {r : α → α → Prop} {le : α → α → Bool}
    (hle : ∀ a b, le a b = true → r a b) (hnle : ∀ a b, le a b = false → r b a)
    (htrans : ∀ a b c, r a b → r b c → r a c) (x : α) :
    ∀ (l : List α), l.Sorted r → (insertSorted le x l).Sorted r := by
  intro l
  induction l with
  | nil => intro _; simp [insertSorted]
  | cons y ys ih =>
    intro hs
    rw [insertSorted]
    rcases List.sorted_cons.mp hs with ⟨hy, hys⟩
    by_cases hyx : le y x = true
    · simp only [hyx, if_true, ite_true]
      rw [List.sorted_cons]
      refine ⟨?_, ih hys⟩
      intro b hb
      rcases (mem_insertSorted le x ys b).mp hb with rfl | hb
      · exact hle _ _ hyx
      · exact hy b hb
    · have hyx2 : le y x = false := by
        cases hxy : le y x
        · rfl
        · exact absurd hxy hyx
      simp only [hyx, Bool.false_eq_true, if_false, ite_false]
      rw [List.sorted_cons]
      refine ⟨?_, hs⟩
      intro b hb
      rcases List.mem_cons.mp hb with rfl | hb
      · exact hnle _ _ hyx2
      · exact htrans x y b (hnle y x hyx2) (hy b hb)

theorem pySortBy_sorted {α : Type} {r : α → α → Prop} {le : α → α → Bool}
    (hle : ∀ a b, le a b = true → r a b) (hnle : ∀ a b, le a b = false → r b a)
    (htrans : ∀ a b c, r a b → r b c → r a c) (l : List α) :
    (pySortBy le l).Sorted r := by
  rw [pySortBy]
  have hgen : ∀ (l acc : List α), acc.Sorted r →
      (l.foldl (fun acc x => insertSorted le x acc) acc).Sorted r := by
    intro l
    induction l with
    | nil => intro acc h; exact h
    | cons x xs ih =>
      intro acc h
      exact ih _ (insertSorted_sorted hle hnle htrans x acc h)
  exact hgen l [] (by simp)

theorem pySortBy_desc_sorted {α : Type} (key : α → ℚ) (l : List α) :
    (pySortBy (fun x y => decide (key y ≤ key x)) l).Sorted
      (fun x y => key y ≤ key x) := by
  refine pySortBy_sorted ?_ ?_ ?_ l
  · intro a b hab
    exact of_decide_eq_true hab
  · intro a b hab
    exact le_of_not_le (of_decide_eq_false hab)
  · intro a b c h1 h2
    exact le_trans h2 h1

/-! ## Claim C5: the two priority scores of the similarity strategies -/

/-- lsh_filter._calculate_priority (lines 285-311): +2.0 same type, +1.0 per
side whose type is high-value, plus the average confidence.  No polarity or
numeric term. -/
def lshCalculatePriority (fact_a fact_b : Fact) : ℚ :=
  let type_a := fact_a.type.getD ""
  let type_b := fact_b.type.getD ""
  let p1 : ℚ := if type_a = type_b then 2 else 0
  let p2 : ℚ := if type_a ∈ ["数据", "日期", "结论"] then 1 else 0
  let p3 : ℚ := if type_b ∈ ["数据", "日期", "结论"] then 1 else 0
  let conf_a := fact_a.confidence.getD (Rat.divInt 1 2)
  let conf_b := fact_b.confidence.getD (Rat.divInt 1 2)
  ratAdd (ratAdd (ratAdd p1 p2) p3) (ratDiv (ratAdd conf_a conf_b) 2)

/-- semantic_indexer._calculate_priority (lines 312-352): 2x similarity base,
+1.0 same type, +0.5 per side whose type is in a five-element high-value set,
+1.5 for differing non-empty polarities, and +1.0 plus the relative
difference for differing numeric values.  No confidence term. -/
def semanticCalculatePriority (fact_a fact_b : Fact) (similarity : ℚ) : ℚ :=
  let base := ratMul similarity 2
  let type_a := fact_a.type.getD ""
  let type_b := fact_b.type.getD ""
  let p1 : ℚ := if type_a = type_b then 1 else 0
  let p2 : ℚ := if type_a ∈ ["数据", "日期", "结论", "百分比", "金额"] then Rat.divInt 1 2 else 0
  let p3 : ℚ := if type_b ∈ ["数据", "日期", "结论", "百分比", "金额"] then Rat.divInt 1 2 else 0
  let polarity_a := pyLower (optStr fact_a.polarity)
  let polarity_b := pyLower (optStr fact_b.polarity)
  let p4 : ℚ :=
    if polarity_a ≠ "" ∧ polarity_b ≠ "" ∧ polarity_a ≠ polarity_b then Rat.divInt 3 2 else 0
  let p5 : ℚ :=
    match numOf fact_a.value, numOf fact_b.value with
    | some a, some b =>
      if a ≠ b then
        ratAdd 1 (if 0 < pyMin a b then ratDiv (pyAbs (ratSub a b)) (pyMax a b) else 0)
      else 0
    | _, _ => 0
  ratAdd (ratAdd (ratAdd (ratAdd (ratAdd base p1) p2) p3) p4) p5

/-- Modelled from the claim text of C5 (refinement comparison): the single
formula the claim says both strategies compute: +2.0 same type, +1.0 per
high-value side, +1.5 for differing polarity, plus the average confidence,
plus the numeric-divergence ratio when both sides carry comparable values. -/
def claimedSharedPriority (fact_a fact_b : Fact) : ℚ :=
  let type_a := fact_a.type.getD ""
  let type_b := fact_b.type.getD ""
  let p1 : ℚ := if type_a = type_b then 2 else 0
  let p2 : ℚ := if type_a ∈ ["数据", "日期", "结论"] then 1 else 0
  let p3 : ℚ := if type_b ∈ ["数据", "日期", "结论"] then 1 else 0
  let p4 : ℚ :=
    if pyLower (optStr fact_a.polarity) ≠ pyLower (optStr fact_b.polarity)
    then Rat.divInt 3 2 else 0
  let conf := ratDiv
    (ratAdd (fact_a.confidence.getD (Rat.divInt 1 2)) (fact_b.confidence.getD (Rat.divInt 1 2))) 2
  let p5 : ℚ :=
    match numOf fact_a.value, numOf fact_b.value with
    | some a, some b =>
      if 0 < pyMin a b then ratDiv (pyAbs (ratSub a b)) (pyMax a b) else 0
    | _, _ => 0
  ratAdd (ratAdd (ratAdd (ratAdd (ratAdd p1 p2) p3) p4) conf) p5

/-- The ranking tail of both lsh_filter strategies (lines 171-174, 219-221):
stable descending sort of the scored pairs by priority, truncation to
maxPairs, scores dropped.  The scored list itself is produced by the
external MinHash or token machinery. -/
def lshSelect (scored : List (ℚ × Fact × Fact)) (maxPairs : Nat) : List (Fact × Fact) :=
  ((pySortBy (fun x y => decide (y.1 ≤ x.1)) scored).take maxPairs).map (fun x => x.2)

/-- The ranking tail of semantic_indexer.find_similar_pairs (lines 297-310):
stable descending sort of the scored vector candidates, append until the
budget left after the hash-equality duplicate pre-pass is filled, prepend
the duplicate pairs and cut at maxPairs. -/
def semanticSelect (dups : List (Fact × Fact × ℚ)) (cands : List (ℚ × Fact × Fact × ℚ))
    (maxPairs : Nat) : List (Fact × Fact × ℚ) :=
  let sorted := pySortBy (fun x y => decide (y.1 ≤ x.1)) cands
  let semanticPairs := appendLimited (maxPairs - dups.length) []
    (sorted.map (fun x => (x.2.1, x.2.2.1, x.2.2.2)))
  (dups ++ semanticPairs).take maxPairs

/-- The facts separating the two priority formulas: same high-value type,
opposite polarities, default confidences, no values. -/
def cFactA : Fact := { fact_id := some "pa", type := some "数据", polarity := some "affirmative" }

/-- Companion fact of the C5 counterexample. -/
def cFactB : Fact := { fact_id := some "pb", type := some "数据", polarity := some "negative" }

/-- Claim C5 (amended): the two strategies do NOT compute the same per-pair
priority score (the signature-bucket score has no polarity or numeric term,
the vector score starts from twice the similarity and has no confidence
term); what holds is that each strategy stably sorts its own scored
candidates descending by its own priority before truncation to maxPairs, and
both truncations respect maxPairs (the vector strategy places its exact-
duplicate pre-pass pairs first). -/
theorem C5_priority_and_ranking :
    (¬ ∀ (fa fb : Fact) (sim : ℚ),
        lshCalculatePriority fa fb = semanticCalculatePriority fa fb sim) ∧
    (∀ (scored : List (ℚ × Fact × Fact)) (maxPairs : Nat),
        ((pySortBy (fun x y => decide (y.1 ≤ x.1)) scored).take maxPairs).Sorted
          (fun x y => y.1 ≤ x.1) ∧
        (lshSelect scored maxPairs).length ≤ maxPairs) ∧
    (∀ (cands : List (ℚ × Fact × Fact × ℚ)),
        (pySortBy (fun x y => decide (y.1 ≤ x.1)) cands).Sorted
          (fun x y => y.1 ≤ x.1)) ∧
    (∀ (dups : List (Fact × Fact × ℚ)) (cands : List (ℚ × Fact × Fact × ℚ))
        (maxPairs : Nat), (semanticSelect dups cands maxPairs).length ≤ maxPairs) := by
  refine ⟨?_, ?_, ?_, ?_⟩
  · intro hall
    exact absurd (hall cFactA cFactB 1) (by decide)
  · intro scored maxPairs
    refine ⟨?_, ?_⟩
    · have hs := pySortBy_desc_sorted (fun x : ℚ × Fact × Fact => x.1) scored
      exact List.Pairwise.sublist (List.take_sublist _ _) hs
    · simp [lshSelect]
  · intro cands
    exact pySortBy_desc_sorted (fun x : ℚ × Fact × Fact × ℚ => x.1) cands
  · intro dups cands maxPairs
    simp [semanticSelect]

/-- Claim C5 counterexample: a concrete pair on which the three formulas
(signature-bucket, vector with similarity 1, and the shared formula the
claim asserts) are pairwise different: 4.5, 5.5 and 6. -/
theorem C5_counterexample :
    lshCalculatePriority cFactA cFactB ≠ semanticCalculatePriority cFactA cFactB 1 ∧
    lshCalculatePriority cFactA cFactB ≠ claimedSharedPriority cFactA cFactB ∧
    semanticCalculatePriority cFactA cFactB 1 ≠ claimedSharedPriority cFactA cFactB :=
  ⟨by decide, by decide, by decide⟩

/-! ## Progress sessions (progress_manager.py) -/

/-- The ProgressStage enum. -/
inductive ProgressStage where
  | upload
  | extractFacts
  | detectConflicts
  | verifyFacts
  | complete
deriving DecidableEq

/-- The .value string of each stage member. -/
def stageValue : ProgressStage → String
  | .upload => "upload"
  | .extractFacts => "extract_facts"
  | .detectConflicts => "detect_conflicts"
  | .verifyFacts => "verify_facts"
  | .complete => "complete"

/-- ProgressState with its dataclass defaults.  started_at is omitted: it
only feeds the wall-clock elapsed_seconds display field. -/
structure ProgressState where
  stage : ProgressStage := .upload
  stage_label : String := "上传文档"
  current : Nat := 0
  total : Nat := 0
  message : String := ""
  sub_message : String := ""
  completed_stages : List String := []
deriving DecidableEq

/-- ProgressState() with all defaults. -/
def initialProgressState : ProgressState := {}

/-- Round half to even (the Python round tie rule), kernel-reducible. -/
def roundHalfEven (q : ℚ) : ℤ :=
  let f := Int.fdiv q.num q.den
  let r := Rat.divInt (q.num - f * q.den) q.den
  if r < Rat.divInt 1 2 then f
  else if Rat.divInt 1 2 < r then f + 1
  else if f % 2 = 0 then f else f + 1

/-- Python round(x, 1) idealised over the rationals. -/
def round1 (q : ℚ) : ℚ :=
  Rat.divInt (roundHalfEven (ratMul q 10)) 10

/-- One published snapshot: ProgressState.to_dict minus elapsed_seconds. -/
structure Snapshot where
  stage : String
  stage_label : String
  current : Nat
  total : Nat
  progress : ℚ
  message : String
  sub_message : String
  completed_stages : List String
deriving DecidableEq

/-- ProgressState.to_dict (lines 36-48): the percentage is derived, never
stored: round(current / total * 100, 1) when total > 0, else 0. -/
def toDict (s : ProgressState) : Snapshot :=
  { stage := stageValue s.stage
    stage_label := s.stage_label
    current := s.current
    total := s.total
    progress :=
      if 0 < s.total then round1 (ratMul (ratDiv (s.current : ℚ) (s.total : ℚ)) 100) else 0
    message := s.message
    sub_message := s.sub_message
    completed_stages := s.completed_stages }

/-- The keyword arguments of update_progress; none means not passed. -/
structure UpdateArgs where
  stage : Option ProgressStage := none
  stage_label : Option String := none
  current : Option Nat := none
  total : Option Nat := none
  message : Option String := none
  sub_message : Option String := none
  mark_stage_complete : Bool := false
deriving DecidableEq

/-- The in-place field updates of update_progress (lines 97-113): first the
retroactive completed-stages append, then each passed field overwrites. -/
def applyUpdate (s : ProgressState) (u : UpdateArgs) : ProgressState :=
  { stage := u.stage.getD s.stage
    stage_label := u.stage_label.getD s.stage_label
    current := u.current.getD s.current
    total := u.total.getD s.total
    message := u.message.getD s.message
    sub_message := u.sub_message.getD s.sub_message
    completed_stages :=
      if u.mark_stage_complete ∧ stageValue s.stage ∉ s.completed_stages
      then s.completed_stages ++ [stageValue s.stage] else s.completed_stages }

/-- The manager maps document ids to sessions and subscriber queue lists;
queues are identified abstractly by numbers and their contents are not
modelled (every queue just receives the returned snapshot). -/
structure ManagerState where
  progress : List (String × ProgressState) := []
  listeners : List (String × List Nat) := []
deriving DecidableEq

/-- Python dict assignment d[k] = v. -/
def assocSet {β : Type} : List (String × β) → String → β → List (String × β)
  | [], k, v => [(k, v)]
  | (k', v') :: rest, k, v =>
    if k' = k then (k, v) :: rest else (k', v') :: assocSet rest k v

/-- Python dict .get(k). -/
def assocGet {β : Type} : List (String × β) → String → Option β
  | [], _ => none
  | (k', v') :: rest, k => if k' = k then some v' else assocGet rest k

/-- create_session (lines 70-75): a fresh default state and an empty
listener list for the document. -/
def createSession (m : ManagerState) (documentId : String) : ManagerState :=
  { progress := assocSet m.progress documentId initialProgressState
    listeners := assocSet m.listeners documentId [] }

/-- update_progress (lines 81-116): a missing session is created on the fly,
the update is applied in place, and the to_dict snapshot is pushed to every
listener queue (returned here as the published snapshot). -/
def updateProgressM (m : ManagerState) (documentId : String) (u : UpdateArgs) :
    ManagerState × Snapshot :=
  let ms : ManagerState × ProgressState :=
    match assocGet m.progress documentId with
    | some s => (m, s)
    | none => (createSession m documentId, initialProgressState)
  let s' := applyUpdate ms.2 u
  ({ ms.1 with progress := assocSet ms.1.progress documentId s' }, toDict s')

theorem assocGet_assocSet_self {β : Type} (l : List (String × β)) (k : String) (v : β) :
    assocGet (assocSet l k v) k = some v := by
  induction l with
  | nil => simp [assocSet, assocGet]
  | cons p rest ih =>
    obtain ⟨k', v'⟩ := p
    by_cases hk : k' = k
    · simp [assocSet, assocGet, hk]
    · simp [assocSet, assocGet, hk, ih]

/-! ## Claims C8 and C10 -/

/-- Claim C8: every snapshot derives its percentage as
round(current / total * 100, 1) when total > 0 and 0 when total = 0; in
particular an update carrying current 5 and total 20 publishes 25.0. -/
theorem C8_progress_percentage (s : ProgressState) (m : ManagerState)
    (documentId : String) (u : UpdateArgs) (hu : u.current = some 5 ∧ u.total = some 20) :
    (0 < s.total →
      (toDict s).progress = round1 ((s.current : ℚ) / (s.total : ℚ) * 100)) ∧
    (s.total = 0 → (toDict s).progress = 0) ∧
    (updateProgressM m documentId u).2.progress = 25 := by
  refine ⟨?_, ?_, ?_⟩
  · intro hpos
    simp [toDict, hpos, ratDiv_eq, ratMul_eq]
  · intro hz
    simp [toDict, hz]
  · obtain ⟨hc, ht⟩ := hu
    have hkey : ∀ (x : ProgressState), (toDict (applyUpdate x u)).progress = 25 := by
      intro x
      have h1 : (applyUpdate x u).current = 5 := by simp [applyUpdate, hc]
      have h2 : (applyUpdate x u).total = 20 := by simp [applyUpdate, ht]
      simp only [toDict, h1, h2]
      norm_num
      decide
    rw [updateProgressM]
    cases hg : assocGet m.progress documentId
    · simp only [hg]
      exact hkey _
    · simp only [hg]
      exact hkey _

/-- Witness for claim C8 at the concrete update of the claim. -/
theorem C8_progress_percentage_witness :
    (updateProgressM (ManagerState.mk [] []) "doc"
      (UpdateArgs.mk none none (some 5) (some 20) none none false)).2.progress = 25 :=
  (C8_progress_percentage initialProgressState (ManagerState.mk [] []) "doc"
    (UpdateArgs.mk none none (some 5) (some 20) none none false) ⟨rfl, rfl⟩).2.2

/-- Claim C10: update_progress for a document id with no session never fails
with a not-found error: it creates a fresh session (initial stage, zero
counters, empty subscriber list) and applies the update to it. -/
theorem C10_update_missing_session (m : ManagerState) (documentId : String)
    (u : UpdateArgs) (hnone : assocGet m.progress documentId = none) :
    assocGet (updateProgressM m documentId u).1.progress documentId =
      some (applyUpdate initialProgressState u) ∧
    assocGet (updateProgressM m documentId u).1.listeners documentId = some [] ∧
    initialProgressState.stage = ProgressStage.upload ∧
    initialProgressState.current = 0 ∧ initialProgressState.total = 0 := by
  refine ⟨?_, ?_, rfl, rfl, rfl⟩
  · rw [updateProgressM]
    simp only [hnone]
    simp [createSession, assocGet_assocSet_self]
  · rw [updateProgressM]
    simp only [hnone]
    simp [createSession, assocGet_assocSet_self]

/-- Witness for claim C10 on an empty manager. -/
theorem C10_update_missing_session_witness :
    assocGet (updateProgressM (ManagerState.mk [] []) "doc"
        (UpdateArgs.mk none none (some 5) none none none false)).1.progress "doc" =
      some (applyUpdate initialProgressState
        (UpdateArgs.mk none none (some 5) none none none false)) :=
  (C10_update_missing_session (ManagerState.mk [] [])
    "doc" (UpdateArgs.mk none none (some 5) none none none false) rfl).1

/-! ## The judgment dispatch orchestrator (detect_conflicts) -/

/-- A parsed oracle verdict, after _parse_conflict_response has backfilled
the five required fields with their defaults. -/
structure Verdict where
  has_conflict : Bool
  conflict_type : String
  severity : String
  explanation : String
  confidence : ℚ
deriving DecidableEq

/-- The outcome of one _compare_facts call as seen by the batch loop run
under asyncio.gather with return_exceptions=True: an escaped exception, a
caught failure or unparseable response (None), or a parsed verdict. -/
inductive OracleOutcome where
  | err (msg : String)
  | noParse
  | ok (v : Verdict)
deriving DecidableEq

/-- The per-fact summary embedded in a conflict record (lines 158-171). -/
structure FactSummary where
  fact_id : Option String
  type : Option String
  content : Option String
  original_text : Option String
  location : Option String
deriving DecidableEq

/-- The fields detect_conflicts copies out of a fact. -/
def summarize (f : Fact) : FactSummary :=
  ⟨f.fact_id, f.type, f.content, f.original_text, f.location⟩

/-- One conflict record (lines 156-176). -/
structure Conflict where
  conflict_id : String
  fact_a : FactSummary
  fact_b : FactSummary
  conflict_type : String
  severity : String
  explanation : String
  confidence : ℚ
deriving DecidableEq

/-- The record built for a positive verdict; idx is len(conflicts) at the
moment of creation, giving sequential ids scoped to the document.  The
verdict fields are always present after the parser backfill, so the dict
defaults of lines 172-175 cannot fire. -/
def mkConflict (documentId : String) (idx : Nat) (fa fb : Fact) (v : Verdict) : Conflict :=
  { conflict_id := "conflict_" ++ documentId ++ "_" ++ toString idx
    fact_a := summarize fa
    fact_b := summarize fb
    conflict_type := v.conflict_type
    severity := v.severity
    explanation := v.explanation
    confidence := v.confidence }

/-- The running state of the comparison loop: accumulated conflicts, the
comparison counter, the progress session state and the published snapshots. -/
structure LoopState where
  conflicts : List Conflict
  count : Nat
  prog : ProgressState
  events : List Snapshot
deriving DecidableEq

/-- The arguments of the in-loop progress update (lines 143-148). -/
def loopUpdateArgs (c total nconf : Nat) : UpdateArgs :=
  { current := some c
    message := some ("正在进行全文档逻辑矛盾检测 (" ++ toString c ++ "/" ++ toString total ++ ")")
    sub_message := some ("已发现 " ++ toString nconf ++ " 个冲突") }

/-- One iteration of the result loop (lines 138-178): bump the counter,
publish a snapshot after every fifth comparison, skip exceptions and
negative or unparseable verdicts, append a record for a positive verdict. -/
def stepCompare (oracle : Fact → Fact → OracleOutcome) (documentId : String)
    (reportProgress : Bool) (totalPairs : Nat) (st : LoopState) (p : Fact × Fact) :
    LoopState :=
  let cnt := st.count + 1
  let pe : ProgressState × List Snapshot :=
    if reportProgress ∧ cnt % 5 = 0 then
      let s' := applyUpdate st.prog (loopUpdateArgs cnt totalPairs st.conflicts.length)
      (s', st.events ++ [toDict s'])
    else (st.prog, st.events)
  match oracle p.1 p.2 with
  | .err _ => { conflicts := st.conflicts, count := cnt, prog := pe.1, events := pe.2 }
  | .noParse => { conflicts := st.conflicts, count := cnt, prog := pe.1, events := pe.2 }
  | .ok v =>
    if v.has_conflict then
      { conflicts := st.conflicts ++ [mkConflict documentId st.conflicts.length p.1 p.2 v]
        count := cnt, prog := pe.1, events := pe.2 }
    else { conflicts := st.conflicts, count := cnt, prog := pe.1, events := pe.2 }

/-- Structural helper for the batch decomposition: cur is the reversed
batch being filled, n the capacity left in it. -/
def chunksAux : List (Fact × Fact) → List (Fact × Fact) → Nat → List (List (Fact × Fact))
  | [], cur, _ => if cur.isEmpty then [] else [cur.reverse]
  | p :: rest, cur, 0 => cur.reverse :: chunksAux rest [p] 9
  | p :: rest, cur, n + 1 => chunksAux rest (p :: cur) n

/-- The fixed batch decomposition pairs[i:i+10] (batch_size = 10,
lines 128-131). -/
def chunks10 (pairs : List (Fact × Fact)) : List (List (Fact × Fact)) :=
  chunksAux pairs [] 10

/-- The batched comparison loop: batches are dispatched concurrently but
gather preserves order and the whole batch resolves before the next starts,
so the observable result is the in-order fold over the batches. -/
def detectLoop (oracle : Fact → Fact → OracleOutcome) (documentId : String)
    (reportProgress : Bool) (totalPairs : Nat) (st : LoopState)
    (pairs : List (Fact × Fact)) : LoopState :=
  (chunks10 pairs).foldl
    (fun st batch => batch.foldl (stepCompare oracle documentId reportProgress totalPairs) st) st

theorem chunksAux_flatten :
    ∀ (l : List (Fact × Fact)) (cur : List (Fact × Fact)) (n : Nat),
      (chunksAux l cur n).flatten = cur.reverse ++ l := by
  intro l
  induction l with
  | nil =>
    intro cur n
    cases cur with
    | nil => simp [chunksAux]
    | cons c cs => simp [chunksAux]
  | cons p rest ih =>
    intro cur n
    cases n with
    | zero => simp [chunksAux, ih]
    | succ m => simp [chunksAux, ih]

theorem chunks10_flatten (l : List (Fact × Fact)) : (chunks10 l).flatten = l := by
  rw [chunks10, chunksAux_flatten]
  rfl

theorem detectLoop_eq_foldl (oracle : Fact → Fact → OracleOutcome) (documentId : String)
    (reportProgress : Bool) (totalPairs : Nat) (st : LoopState)
    (pairs : List (Fact × Fact)) :
    detectLoop oracle documentId reportProgress totalPairs st pairs =
      pairs.foldl (stepCompare oracle documentId reportProgress totalPairs) st := by
  rw [detectLoop]
  rw [← List.foldl_flatten (stepCompare oracle documentId reportProgress totalPairs)
    st (chunks10 pairs)]
  rw [chunks10_flatten]

/-- The conflict accumulation alone, as a plain fold. -/
def conflictStep (oracle : Fact → Fact → OracleOutcome) (documentId : String)
    (acc : List Conflict) (p : Fact × Fact) : List Conflict :=
  match oracle p.1 p.2 with
  | .ok v => if v.has_conflict then acc ++ [mkConflict documentId acc.length p.1 p.2 v] else acc
  | _ => acc

theorem stepCompare_conflicts (oracle : Fact → Fact → OracleOutcome) (documentId : String)
    (reportProgress : Bool) (totalPairs : Nat) (st : LoopState) (p : Fact × Fact) :
    (stepCompare oracle documentId reportProgress totalPairs st p).conflicts =
      conflictStep oracle documentId st.conflicts p := by
  rw [stepCompare, conflictStep]
  cases oracle p.1 p.2 with
  | err m => rfl
  | noParse => rfl
  | ok v =>
    by_cases hv : v.has_conflict = true
    · simp [hv]
    · simp [hv]

theorem stepCompare_count (oracle : Fact → Fact → OracleOutcome) (documentId : String)
    (reportProgress : Bool) (totalPairs : Nat) (st : LoopState) (p : Fact × Fact) :
    (stepCompare oracle documentId reportProgress totalPairs st p).count = st.count + 1 := by
  rw [stepCompare]
  cases oracle p.1 p.2 with
  | err m => rfl
  | noParse => rfl
  | ok v =>
    by_cases hv : v.has_conflict = true
    · simp [hv]
    · simp [hv]

theorem detectLoop_conflicts (oracle : Fact → Fact → OracleOutcome) (documentId : String)
    (reportProgress : Bool) (totalPairs : Nat) :
    ∀ (pairs : List (Fact × Fact)) (st : LoopState),
      (detectLoop oracle documentId reportProgress totalPairs st pairs).conflicts =
        pairs.foldl (conflictStep oracle documentId) st.conflicts := by
  intro pairs
  induction pairs with
  | nil => intro st; rw [detectLoop_eq_foldl]; rfl
  | cons p rest ih =>
    intro st
    rw [detectLoop_eq_foldl] at *
    simp only [List.foldl_cons]
    rw [← detectLoop_eq_foldl] at *
    have := ih (stepCompare oracle documentId reportProgress totalPairs st p)
    rw [this, stepCompare_conflicts]

theorem detectLoop_count (oracle : Fact → Fact → OracleOutcome) (documentId : String)
    (reportProgress : Bool) (totalPairs : Nat) :
    ∀ (pairs : List (Fact × Fact)) (st : LoopState),
      (detectLoop oracle documentId reportProgress totalPairs st pairs).count =
        st.count + pairs.length := by
  intro pairs
  induction pairs with
  | nil => intro st; rw [detectLoop_eq_foldl]; rfl
  | cons p rest ih =>
    intro st
    rw [detectLoop_eq_foldl]
    simp only [List.foldl_cons]
    rw [← detectLoop_eq_foldl]
    rw [ih (stepCompare oracle documentId reportProgress totalPairs st p)]
    rw [stepCompare_count]
    simp only [List.length_cons]
    omega

/-- The severity rank: {"高": 0, "中": 1, "低": 2, "无": 3}, default 1
(lines 186-188). -/
def severityKey (c : Conflict) : Nat :=
  if c.severity = "高" then 0 else if c.severity = "中" then 1
  else if c.severity = "低" then 2 else if c.severity = "无" then 3 else 1

/-- The stable ascending sort by severity rank (Python list.sort is stable
and pySortBy is a stable sort). -/
def sortBySeverity (conflicts : List Conflict) : List Conflict :=
  pySortBy (fun a b => decide (severityKey a ≤ severityKey b)) conflicts

/-- Claim C4: if the oracle raises for one pair, that pair alone is dropped:
the loop still processes every other pair of its batch and of later batches,
completes (processing exactly all pairs), and both the accumulated and the
severity-sorted conflicts equal those of the run over the remaining pairs. -/
theorem C4_oracle_error_isolation (oracle : Fact → Fact → OracleOutcome)
    (documentId : String) (reportProgress : Bool) (totalPairs totalPairs' : Nat)
    (s0 s0' : ProgressState) (pre post : List (Fact × Fact)) (p : Fact × Fact)
    (msg : String) (herr : oracle p.1 p.2 = .err msg) :
    (detectLoop oracle documentId reportProgress totalPairs
        ⟨[], 0, s0, []⟩ (pre ++ p :: post)).conflicts =
      (detectLoop oracle documentId reportProgress totalPairs'
        ⟨[], 0, s0', []⟩ (pre ++ post)).conflicts ∧
    sortBySeverity (detectLoop oracle documentId reportProgress totalPairs
        ⟨[], 0, s0, []⟩ (pre ++ p :: post)).conflicts =
      sortBySeverity (detectLoop oracle documentId reportProgress totalPairs'
        ⟨[], 0, s0', []⟩ (pre ++ post)).conflicts ∧
    (detectLoop oracle documentId reportProgress totalPairs
        ⟨[], 0, s0, []⟩ (pre ++ p :: post)).count = pre.length + 1 + post.length := by
  have hmain : (detectLoop oracle documentId reportProgress totalPairs
      ⟨[], 0, s0, []⟩ (pre ++ p :: post)).conflicts =
      (detectLoop oracle documentId reportProgress totalPairs'
        ⟨[], 0, s0', []⟩ (pre ++ post)).conflicts := by
    rw [detectLoop_conflicts, detectLoop_conflicts]
    rw [List.foldl_append, List.foldl_append, List.foldl_cons]
    have hstep : conflictStep oracle documentId
        (pre.foldl (conflictStep oracle documentId) []) p =
        pre.foldl (conflictStep oracle documentId) [] := by
      rw [conflictStep, herr]
    rw [hstep]
  refine ⟨hmain, by rw [hmain], ?_⟩
  rw [detectLoop_count]
  simp
  omega

/-- An oracle that reports no conflict for every pair. -/
def oracleNone : Fact → Fact → OracleOutcome :=
  fun _ _ => .ok ⟨false, "无冲突", "无", "", Rat.divInt 3 10⟩

/-- An oracle that times out whenever the left fact has id x and otherwise
reports a high-severity conflict. -/
def oracleErrOnX : Fact → Fact → OracleOutcome :=
  fun a _ =>
    if a.fact_id = some "x" then .err "timeout"
    else .ok ⟨true, "数据不一致", "高", "数值矛盾", Rat.divInt 1 2⟩

/-- The fact whose pairs the failing oracle rejects. -/
def wFactX : Fact := { fact_id := some "x" }

/-- Witness for claim C4: a three-pair run whose middle pair times out. -/
theorem C4_oracle_error_isolation_witness :
    oracleErrOnX wFactX wFactA = .err "timeout" ∧
    (detectLoop oracleErrOnX "doc" false 3 ⟨[], 0, initialProgressState, []⟩
        [(wFactA, wFactB), (wFactX, wFactA), (wFactB, wFactA)]).conflicts =
      (detectLoop oracleErrOnX "doc" false 2 ⟨[], 0, initialProgressState, []⟩
        [(wFactA, wFactB), (wFactB, wFactA)]).conflicts :=
  ⟨by decide, (C4_oracle_error_isolation oracleErrOnX "doc" false 3 2
    initialProgressState initialProgressState [(wFactA, wFactB)] [(wFactB, wFactA)]
    (wFactX, wFactA) "timeout" (by decide)).1⟩

/-! ## Claim C6: the cadence of in-loop progress snapshots -/

theorem stepCompare_events (oracle : Fact → Fact → OracleOutcome) (documentId : String)
    (reportProgress : Bool) (totalPairs : Nat) (st : LoopState) (p : Fact × Fact) :
    (stepCompare oracle documentId reportProgress totalPairs st p).events =
      if reportProgress ∧ (st.count + 1) % 5 = 0 then
        st.events ++ [toDict (applyUpdate st.prog
          (loopUpdateArgs (st.count + 1) totalPairs st.conflicts.length))]
      else st.events := by
  rw [stepCompare]
  cases oracle p.1 p.2 with
  | err m => by_cases hc : reportProgress ∧ (st.count + 1) % 5 = 0 <;> simp [hc]
  | noParse => by_cases hc : reportProgress ∧ (st.count + 1) % 5 = 0 <;> simp [hc]
  | ok v =>
    by_cases hv : v.has_conflict = true <;>
      by_cases hc : reportProgress ∧ (st.count + 1) % 5 = 0 <;> simp [hv, hc]

theorem stepCompare_prog (oracle : Fact → Fact → OracleOutcome) (documentId : String)
    (reportProgress : Bool) (totalPairs : Nat) (st : LoopState) (p : Fact × Fact) :
    (stepCompare oracle documentId reportProgress totalPairs st p).prog =
      if reportProgress ∧ (st.count + 1) % 5 = 0 then
        applyUpdate st.prog (loopUpdateArgs (st.count + 1) totalPairs st.conflicts.length)
      else st.prog := by
  rw [stepCompare]
  cases oracle p.1 p.2 with
  | err m => by_cases hc : reportProgress ∧ (st.count + 1) % 5 = 0 <;> simp [hc]
  | noParse => by_cases hc : reportProgress ∧ (st.count + 1) % 5 = 0 <;> simp [hc]
  | ok v =>
    by_cases hv : v.has_conflict = true <;>
      by_cases hc : reportProgress ∧ (st.count + 1) % 5 = 0 <;> simp [hv, hc]

theorem applyUpdate_loopArgs_total (s : ProgressState) (c t n : Nat) :
    (applyUpdate s (loopUpdateArgs c t n)).total = s.total := rfl

theorem applyUpdate_loopArgs_current (s : ProgressState) (c t n : Nat) :
    (applyUpdate s (loopUpdateArgs c t n)).current = c := rfl

theorem rangeFilter_succ (c n : Nat) :
    (List.range (n + 1)).filterMap
        (fun k => if (c + k + 1) % 5 = 0 then some (c + k + 1) else none) =
      (if (c + 1) % 5 = 0 then [c + 1] else []) ++
      (List.range n).filterMap
        (fun k => if ((c + 1) + k + 1) % 5 = 0 then some ((c + 1) + k + 1) else none) := by
  rw [List.range_succ_eq_map, List.filterMap_cons, List.filterMap_map]
  have harith : ∀ k : Nat, c + (k + 1) + 1 = c + 1 + k + 1 := fun k => by omega
  by_cases hc : (c + 1) % 5 = 0
  · simp only [Nat.add_zero, hc, if_pos, if_true]
    simp [Function.comp_def, harith, hc]
  · simp only [Nat.add_zero, hc]
    simp [Function.comp_def, harith, hc]

theorem detectLoop_events (oracle : Fact → Fact → OracleOutcome) (documentId : String)
    (totalPairs : Nat) :
    ∀ (pairs : List (Fact × Fact)) (st : LoopState),
      ((detectLoop oracle documentId true totalPairs st pairs).events.map
          (fun e => e.current) =
        st.events.map (fun e => e.current) ++
          (List.range pairs.length).filterMap
            (fun k => if (st.count + k + 1) % 5 = 0 then some (st.count + k + 1) else none)) ∧
      (detectLoop oracle documentId true totalPairs st pairs).prog.total = st.prog.total ∧
      (∀ e ∈ (detectLoop oracle documentId true totalPairs st pairs).events,
        e ∈ st.events ∨ e.total = st.prog.total) := by
  intro pairs
  induction pairs with
  | nil =>
    intro st
    rw [detectLoop_eq_foldl]
    refine ⟨by simp, rfl, fun e he => Or.inl he⟩
  | cons p rest ih =>
    intro st
    rw [detectLoop_eq_foldl, List.foldl_cons, ← detectLoop_eq_foldl]
    obtain ⟨ih1, ih2, ih3⟩ := ih (stepCompare oracle documentId true totalPairs st p)
    have hcount := stepCompare_count oracle documentId true totalPairs st p
    have hev := stepCompare_events oracle documentId true totalPairs st p
    have hpr := stepCompare_prog oracle documentId true totalPairs st p
    refine ⟨?_, ?_, ?_⟩
    · rw [ih1, hev, hcount]
      rw [List.length_cons, rangeFilter_succ]
      by_cases hc : (st.count + 1) % 5 = 0
      · simp only [true_and, hc, if_pos, if_true]
        simp [applyUpdate_loopArgs_current, toDict, List.append_assoc]
      · simp only [true_and, hc, if_false]
        simp [hc]
    · rw [ih2, hpr]
      by_cases hc : (st.count + 1) % 5 = 0
      · simp [hc, applyUpdate_loopArgs_total]
      · simp [hc]
    · intro e he
      rcases ih3 e he with hmem | htot
      · rw [hev] at hmem
        by_cases hc : (st.count + 1) % 5 = 0
        · simp only [true_and, hc, if_pos, if_true] at hmem
          rcases List.mem_append.mp hmem with hmem | hmem
          · exact Or.inl hmem
          · right
            rcases List.mem_singleton.mp hmem with rfl
            exact applyUpdate_loopArgs_total st.prog (st.count + 1) totalPairs
              st.conflicts.length
        · simp only [true_and, hc, if_false, ite_false] at hmem
          exact Or.inl hmem
      · right
        rw [htot, hpr]
        by_cases hc : (st.count + 1) % 5 = 0
        · simp [hc, applyUpdate_loopArgs_total]
        · simp [hc]

/-- Claim C6 (amended): with progress reporting enabled, the comparison loop
publishes a snapshot exactly after every fifth completed comparison,
carrying that count as current and the session total; detect_conflicts
itself publishes NO separate completion update at 100 percent, so an update
with current equal to total occurs only when the pair count is a positive
multiple of five (the completion update the claim describes is issued by the
HTTP endpoint after detect_conflicts returns). -/
theorem C6_progress_cadence (oracle : Fact → Fact → OracleOutcome)
    (documentId : String) (totalPairs : Nat) (s0 : ProgressState)
    (pairs : List (Fact × Fact)) (hts : s0.total = pairs.length) :
    ((detectLoop oracle documentId true totalPairs ⟨[], 0, s0, []⟩ pairs).events.map
        (fun e => e.current)) =
      (List.range pairs.length).filterMap
        (fun k => if (k + 1) % 5 = 0 then some (k + 1) else none) ∧
    (∀ e ∈ (detectLoop oracle documentId true totalPairs ⟨[], 0, s0, []⟩ pairs).events,
      e.total = pairs.length) := by
  obtain ⟨h1, _h2, h3⟩ := detectLoop_events oracle documentId totalPairs pairs ⟨[], 0, s0, []⟩
  constructor
  · simpa using h1
  · intro e he
    rcases h3 e he with hmem | htot
    · simp at hmem
    · rw [← hts]
      exact htot

/-- Witness for claim C6: six no-conflict pairs publish exactly one snapshot,
after the fifth comparison, carrying the total 6. -/
theorem C6_progress_cadence_witness :
    ((detectLoop oracleNone "doc" true 6
        ⟨[], 0, ProgressState.mk .upload "上传文档" 0 6 "" "" [], []⟩
        (List.replicate 6 (wFactA, wFactB))).events.map (fun e => e.current)) =
      (List.range (List.replicate 6 (wFactA, wFactB)).length).filterMap
        (fun k => if (k + 1) % 5 = 0 then some (k + 1) else none) :=
  (C6_progress_cadence oracleNone "doc" 6
    (ProgressState.mk .upload "上传文档" 0 6 "" "" [])
    (List.replicate 6 (wFactA, wFactB)) (by decide)).1

/-! ## Repetition detection (_detect_repetitions) -/

/-- One document section as consumed by the detector. -/
structure DocSection where
  title : Option String := none
  content : Option String := none
deriving DecidableEq

/-- The sentence-splitting characters of re.split(r"[。！？\n.!?;]+", ...). -/
def isSplitChar (c : Char) : Bool :=
  c == '。' || c == '！' || c == '？' || c == '\n' ||
  c == '.' || c == '!' || c == '?' || c == ';'

/-- Split on maximal runs of splitting characters, keeping the (possibly
empty) pieces between runs, like re.split with a one-or-more character
class.  cur is the reversed piece being read, inRun whether the previous
character closed a piece. -/
def splitAux : List Char → List Char → Bool → List String
  | [], cur, _ => [⟨cur.reverse⟩]
  | c :: rest, cur, inRun =>
    if isSplitChar c then
      if inRun then splitAux rest cur true
      else (⟨cur.reverse⟩ : String) :: splitAux rest [] true
    else splitAux rest (c :: cur) false

/-- re.split over a section content. -/
def pySplit (s : String) : List String :=
  splitAux s.data [] false

/-- The filtered (title, normalized segment) stream of one section: skip
empty content, split, strip, drop segments shorter than 20 characters. -/
def segsOfSection (sec : DocSection) : List (String × String) :=
  let title := sec.title.getD "未知章节"
  let content := sec.content.getD ""
  if content = "" then []
  else (pySplit content).filterMap (fun p =>
    let normalized := pyStrip p
    if normalized.length < 20 then none else some (title, normalized))

/-- All kept segments of all sections, in traversal order. -/
def allSegs (sections : List DocSection) : List (String × String) :=
  sections.flatMap segsOfSection

/-- One content_map update: count += 1 and append the section title, with a
fresh entry appended at the end for an unseen segment (dict order). -/
def bumpSeg (m : List (String × Nat × List String)) (seg title : String) :
    List (String × Nat × List String) :=
  match m with
  | [] => [(seg, 1, [title])]
  | (s, c, locs) :: rest =>
    if s = seg then (s, c + 1, locs ++ [title]) :: rest
    else (s, c, locs) :: bumpSeg rest seg title

/-- content_map: normalized segment -> (count, locations). -/
def contentMap (sections : List DocSection) : List (String × Nat × List String) :=
  (allSegs sections).foldl (fun m ts => bumpSeg m ts.2 ts.1) []

/-- Python sorted(list(set(xs))) on strings: deduplicate, sort by code
points. -/
def sortedUnique (xs : List String) : List String :=
  pySortBy (fun a b => strLe a b) xs.eraseDups

/-- One repetition entry (rep_entry, lines 701-722), keeping the semantic
payload: the id built from the content hash, the normalized content, the
occurrence count and the deduplicated sorted locations.  The display
strings derived from these fields are not re-modelled. -/
structure RepEntry where
  conflict_id : String
  content : String
  count : Nat
  locations : List String
deriving DecidableEq

/-- _detect_repetitions: every normalized segment of length at least 20 that
occurs at least 3 times yields an entry. -/
def detectRepetitions (h : String → Int) (sections : List DocSection) : List RepEntry :=
  if sections.isEmpty then []
  else (contentMap sections).filterMap (fun e =>
    if 3 ≤ e.2.1 then
      some { conflict_id := "rep_" ++ toString (h e.1).natAbs
             content := e.1
             count := e.2.1
             locations := sortedUnique e.2.2 }
    else none)

/-! ## detect_conflicts assembled (default non-LSH path) -/

/-- severity_stats / type_stats accumulation: d[k] = d.get(k, 0) + 1. -/
def bumpCount (m : List (String × Nat)) (k : String) : List (String × Nat) :=
  match assocGet m k with
  | some n => assocSet m k (n + 1)
  | none => assocSet m k 1

/-- The returned dict of detect_conflicts.  message is only set by the
too-few-facts early return; saved_to_redis is none when the key is absent. -/
structure DetectResult where
  document_id : String
  total_facts : Nat
  total_comparisons : Nat
  conflicts_found : Nat
  conflicts : List Conflict
  repetitions : List RepEntry
  by_severity : List (String × Nat)
  by_type : List (String × Nat)
  saved_to_redis : Option Bool
  message : Option String
deriving DecidableEq

/-- The first progress update of detect_conflicts (lines 88-97). -/
def initUpdate1 : UpdateArgs :=
  { stage := some .detectConflicts
    stage_label := some "冲突检测"
    current := some 0
    total := some 1
    message := some "正在生成事实对比对列表..."
    sub_message := some "准备中..."
    mark_stage_complete := true }

/-- The second progress update, once the pair count is known (116-121). -/
def initUpdate2 (totalPairs : Nat) : UpdateArgs :=
  { total := some totalPairs
    message := some ("正在进行全文档逻辑矛盾检测 (0/" ++ toString totalPairs ++ ")")
    sub_message := some ("共 " ++ toString totalPairs ++ " 对事实需要比对") }

/-- detect_conflicts (lines 43-224) on its default path (use_lsh false; the
LSH branch delegates to the external MinHash library and falls back to the
same generator when it returns nothing).  The oracle argument abstracts one
_compare_facts call (LLM call plus parse); saveOk abstracts whether
redis.save_conflicts succeeds.  Returns the result record together with the
list of published progress snapshots, threading the progress session state
from s0. -/
def detectConflicts (h : String → Int) (oracle : Fact → Fact → OracleOutcome)
    (saveOk : Bool) (documentId : String) (facts : List Fact) (saveToRedis : Bool)
    (maxPairs : Nat) (reportProgress : Bool) (sections : List DocSection)
    (s0 : ProgressState) : DetectResult × List Snapshot :=
  if facts.length < 2 then
    ({ document_id := documentId
       total_facts := facts.length
       total_comparisons := 0
       conflicts_found := 0
       conflicts := []
       repetitions := []
       by_severity := []
       by_type := []
       saved_to_redis := none
       message := some "事实数量不足，无法进行冲突检测" }, [])
  else
    let p1 : ProgressState × List Snapshot :=
      if reportProgress then
        (applyUpdate s0 initUpdate1, [toDict (applyUpdate s0 initUpdate1)])
      else (s0, [])
    let pairs := genComparisonPairs h facts maxPairs
    let p2 : ProgressState × List Snapshot :=
      if reportProgress then
        (applyUpdate p1.1 (initUpdate2 pairs.length),
         p1.2 ++ [toDict (applyUpdate p1.1 (initUpdate2 pairs.length))])
      else p1
    let fin := detectLoop oracle documentId reportProgress pairs.length
      ⟨[], 0, p2.1, []⟩ pairs
    let reps := if sections.isEmpty then [] else detectRepetitions h sections
    let sorted := sortBySeverity fin.conflicts
    ({ document_id := documentId
       total_facts := facts.length
       total_comparisons := fin.count
       conflicts_found := sorted.length
       conflicts := sorted
       repetitions := reps
       by_severity := sorted.foldl (fun m c => bumpCount m c.severity) []
       by_type := sorted.foldl (fun m c => bumpCount m c.conflict_type) []
       saved_to_redis := if saveToRedis ∧ sorted ≠ [] then some saveOk else none
       message := none }, p2.2 ++ fin.events)

/-- Third fact for the three-pair progress-trace run. -/
def wFactC : Fact := { fact_id := some "c", type := some "T" }

/-- An oracle that reports a conflict for every pair. -/
def oracleConf : Fact → Fact → OracleOutcome :=
  fun _ _ => .ok ⟨true, "数据不一致", "高", "数值矛盾", Rat.divInt 1 2⟩

/-- Claim C6 counterexample: a run over three candidate pairs with progress
reporting enabled completes all three comparisons yet publishes no snapshot
with current equal to total: the full trace is the two initialisation
snapshots (0 of 1, then 0 of 3) and nothing else, refuting the claimed
further update at 100 percent. -/
theorem C6_counterexample :
    (detectConflicts (fun _ => 0) oracleNone true "doc" [wFactA, wFactB, wFactC] true 300
      true [] initialProgressState).1.total_comparisons = 3 ∧
    ((detectConflicts (fun _ => 0) oracleNone true "doc" [wFactA, wFactB, wFactC] true 300
      true [] initialProgressState).2.map (fun e => (e.current, e.total))) =
      [(0, 1), (0, 3)] :=
  ⟨by decide, by decide⟩

/-! ## Claim C7: the persistence flag -/

/-- Claim C7 (amended): for a run that requests persistence, when at least
one conflict was found the save outcome is surfaced as the boolean
saved_to_redis flag (false on failure, true on success) and the rest of the
result and the published snapshots do not depend on the save outcome (a
failure is non-fatal); when no conflict was found the save is skipped and
no flag is present at all. -/
theorem C7_persistence_flag (h : String → Int) (oracle : Fact → Fact → OracleOutcome)
    (saveOk : Bool) (documentId : String) (facts : List Fact) (maxPairs : Nat)
    (reportProgress : Bool) (sections : List DocSection) (s0 : ProgressState) :
    ((detectConflicts h oracle saveOk documentId facts true maxPairs reportProgress
        sections s0).1.conflicts ≠ [] →
      (detectConflicts h oracle saveOk documentId facts true maxPairs reportProgress
        sections s0).1.saved_to_redis = some saveOk) ∧
    ((detectConflicts h oracle saveOk documentId facts true maxPairs reportProgress
        sections s0).1.conflicts = [] →
      (detectConflicts h oracle saveOk documentId facts true maxPairs reportProgress
        sections s0).1.saved_to_redis = none) ∧
    ({ (detectConflicts h oracle saveOk documentId facts true maxPairs reportProgress
        sections s0).1 with saved_to_redis := none } =
      { (detectConflicts h oracle (!saveOk) documentId facts true maxPairs reportProgress
        sections s0).1 with saved_to_redis := none }) ∧
    (detectConflicts h oracle saveOk documentId facts true maxPairs reportProgress
        sections s0).2 =
      (detectConflicts h oracle (!saveOk) documentId facts true maxPairs reportProgress
        sections s0).2 := by
  by_cases hlen : facts.length < 2
  · simp [detectConflicts, hlen]
  · simp only [detectConflicts, hlen, if_false, ite_false]
    by_cases hs : sortBySeverity (detectLoop oracle documentId reportProgress
        (genComparisonPairs h facts maxPairs).length
        ⟨[], 0,
          (if reportProgress then
            (applyUpdate (applyUpdate s0 initUpdate1)
              (initUpdate2 (genComparisonPairs h facts maxPairs).length),
             [toDict (applyUpdate s0 initUpdate1)] ++
              [toDict (applyUpdate (applyUpdate s0 initUpdate1)
                (initUpdate2 (genComparisonPairs h facts maxPairs).length))])
          else (s0, [])).1, []⟩
        (genComparisonPairs h facts maxPairs)).conflicts = []
    · simp [hs]
    · simp [hs]

/-- Claim C7 counterexample: a run that requests persistence but detects no
conflicts skips the save entirely and reports NO boolean flag (the key is
absent), although the claim promises a true-or-false flag for every run
requesting persistence.  total_comparisons = 1 shows the run did execute
rather than taking the too-few-facts early return. -/
theorem C7_counterexample :
    (detectConflicts (fun _ => 0) oracleNone true "doc" [wFactA, wFactB] true 300 false
      [] initialProgressState).1.saved_to_redis = none ∧
    (detectConflicts (fun _ => 0) oracleNone true "doc" [wFactA, wFactB] true 300 false
      [] initialProgressState).1.conflicts = [] ∧
    (detectConflicts (fun _ => 0) oracleNone true "doc" [wFactA, wFactB] true 300 false
      [] initialProgressState).1.total_comparisons = 1 :=
  ⟨by decide, by decide, by decide⟩

/-- Witness for claim C7: an all-conflict oracle with a failing save yields
the explicit false flag. -/
theorem C7_persistence_flag_witness :
    (detectConflicts (fun _ => 0) oracleConf false "doc" [wFactA, wFactB] true 300 false
      [] initialProgressState).1.saved_to_redis = some false :=
  (C7_persistence_flag (fun _ => 0) oracleConf false "doc" [wFactA, wFactB] 300 false
    [] initialProgressState).1 (by decide)

/-! ## Claim C9: length and frequency thresholds of repetition detection -/

theorem allSegs_min_length (sections : List DocSection) :
    ∀ ts ∈ allSegs sections, 20 ≤ ts.2.length := by
  intro ts hts
  rw [allSegs] at hts
  rcases List.mem_flatMap.mp hts with ⟨sec, _, hmem⟩
  rw [segsOfSection] at hmem
  by_cases hc : (sec.content.getD "") = ""
  · simp [hc] at hmem
  · simp only [hc, if_false, ite_false] at hmem
    rcases List.mem_filterMap.mp hmem with ⟨p, _, hp⟩
    by_cases hl : (pyStrip p).length < 20
    · simp [hl] at hp
    · simp only [hl, if_false, ite_false] at hp
      cases hp
      simpa using Nat.le_of_not_lt hl

theorem bumpSeg_keys (seg title : String) :
    ∀ (m : List (String × Nat × List String)), ∀ e ∈ bumpSeg m seg title,
      e.1 = seg ∨ ∃ e2 ∈ m, e.1 = e2.1 := by
  intro m
  induction m with
  | nil =>
    intro e he
    rw [bumpSeg] at he
    rcases List.mem_singleton.mp he with rfl
    exact Or.inl rfl
  | cons p rest ih =>
    obtain ⟨s, c, locs⟩ := p
    intro e he
    rw [bumpSeg] at he
    by_cases hseq : s = seg
    · simp only [hseq, if_true, ite_true] at he
      rcases List.mem_cons.mp he with rfl | he
      · exact Or.inl rfl
      · exact Or.inr ⟨e, List.mem_cons_of_mem _ he, rfl⟩
    · simp only [hseq, if_false, ite_false] at he
      rcases List.mem_cons.mp he with rfl | he
      · exact Or.inr ⟨(s, c, locs), List.mem_cons_self _ _, rfl⟩
      · rcases ih e he with heq | ⟨e2, he2, heq⟩
        · exact Or.inl heq
        · exact Or.inr ⟨e2, List.mem_cons_of_mem _ he2, heq⟩

theorem contentMap_min_length (sections : List DocSection) :
    ∀ e ∈ contentMap sections, 20 ≤ e.1.length := by
  rw [contentMap]
  have hgen : ∀ (L : List (String × String)) (m : List (String × Nat × List String)),
      (∀ ts ∈ L, 20 ≤ ts.2.length) → (∀ e ∈ m, 20 ≤ e.1.length) →
      ∀ e ∈ L.foldl (fun m ts => bumpSeg m ts.2 ts.1) m, 20 ≤ e.1.length := by
    intro L
    induction L with
    | nil => intro m _ hm; exact hm
    | cons ts L ih =>
      intro m hL hm
      rw [List.foldl_cons]
      refine ih _ (fun t ht => hL t (List.mem_cons_of_mem _ ht)) ?_
      intro e he
      rcases bumpSeg_keys ts.2 ts.1 m e he with heq | ⟨e2, he2, heq⟩
      · rw [heq]
        exact hL ts (List.mem_cons_self _ _)
      · rw [heq]
        exact hm e2 he2
  exact hgen (allSegs sections) [] (allSegs_min_length sections) (by simp)

theorem assocGet_bumpSeg_same (seg t : String) :
    ∀ (m : List (String × Nat × List String)),
      assocGet (bumpSeg m seg t) seg =
        some (((assocGet m seg).getD (0, [])).1 + 1,
          ((assocGet m seg).getD (0, [])).2 ++ [t]) := by
  intro m
  induction m with
  | nil => simp [bumpSeg, assocGet]
  | cons p rest ih =>
    obtain ⟨s, c, locs⟩ := p
    rw [bumpSeg]
    by_cases hseq : s = seg
    · simp [hseq, assocGet]
    · simp only [hseq, if_false, ite_false]
      rw [assocGet]
      simp only [hseq, if_false, ite_false]
      rw [ih, assocGet]
      simp [hseq]

theorem assocGet_bumpSeg_other (seg t s' : String) (hne : s' ≠ seg) :
    ∀ (m : List (String × Nat × List String)),
      assocGet (bumpSeg m seg t) s' = assocGet m s' := by
  intro m
  induction m with
  | nil =>
    rw [bumpSeg, assocGet, assocGet, assocGet]
    rw [if_neg (fun hx : seg = s' => hne hx.symm)]
  | cons p rest ih =>
    obtain ⟨s, c, locs⟩ := p
    rw [bumpSeg]
    by_cases hseq : s = seg
    · subst hseq
      rw [if_pos rfl, assocGet, assocGet]
      by_cases hss : s = s'
      · exact absurd hss.symm hne
      · rw [if_neg hss, if_neg hss]
    · rw [if_neg hseq, assocGet, assocGet]
      by_cases hss : s = s'
      · rw [if_pos hss, if_pos hss]
      · rw [if_neg hss, if_neg hss, ih]

/-- The expected content_map entry for a segment: the previous entry plus
one occurrence per filtered input. -/
def accEntry (prev : Option (Nat × List String)) (occ : List (String × String)) :
    Option (Nat × List String) :=
  match prev, occ with
  | none, [] => none
  | _, _ => some ((prev.getD (0, [])).1 + occ.length,
      (prev.getD (0, [])).2 ++ occ.map Prod.fst)

theorem accEntry_none_cons (a : String × String) (occ : List (String × String)) :
    accEntry none (a :: occ) = some ((a :: occ).length, (a :: occ).map Prod.fst) := by
  simp [accEntry]

theorem accEntry_some (v : Nat × List String) (occ : List (String × String)) :
    accEntry (some v) occ = some (v.1 + occ.length, v.2 ++ occ.map Prod.fst) := by
  cases occ <;> simp [accEntry]

theorem contentMap_fold_lookup (seg : String) :
    ∀ (L : List (String × String)) (m : List (String × Nat × List String)),
      assocGet (L.foldl (fun m ts => bumpSeg m ts.2 ts.1) m) seg =
        accEntry (assocGet m seg) (L.filter (fun ts => ts.2 = seg)) := by
  intro L
  induction L with
  | nil =>
    intro m
    simp only [List.foldl_nil, List.filter_nil]
    cases hm : assocGet m seg with
    | none => rfl
    | some v => simp [accEntry, hm]
  | cons ts L ih =>
    intro m
    rw [List.foldl_cons]
    rw [ih]
    by_cases hts : ts.2 = seg
    · rw [List.filter_cons_of_pos (by simpa using hts)]
      rw [hts, assocGet_bumpSeg_same, accEntry_some]
      cases hm : assocGet m seg with
      | none =>
        rw [accEntry_none_cons]
        simp only [Option.getD_none, List.length_cons, List.map_cons, Option.some_inj,
          Prod.mk.injEq, List.append_assoc, List.singleton_append, List.nil_append]
        exact ⟨by omega, trivial⟩
      | some v =>
        rw [accEntry_some]
        simp only [Option.getD_some, List.length_cons, List.map_cons, Option.some_inj,
          Prod.mk.injEq, List.append_assoc, List.singleton_append, List.nil_append]
        exact ⟨by omega, trivial⟩
    · rw [List.filter_cons_of_neg (by simpa using hts)]
      rw [assocGet_bumpSeg_other ts.2 ts.1 seg (fun hx => hts hx.symm)]

theorem assocGet_mem {β : Type} : ∀ (l : List (String × β)) (k : String) (v : β),
    assocGet l k = some v → (k, v) ∈ l := by
  intro l
  induction l with
  | nil =>
    intro k v hkv
    simp [assocGet] at hkv
  | cons p rest ih =>
    obtain ⟨k', v'⟩ := p
    intro k v hkv
    rw [assocGet] at hkv
    by_cases hk : k' = k
    · simp only [hk, if_true, ite_true] at hkv
      cases hkv
      exact hk ▸ List.mem_cons_self _ _
    · simp only [hk, if_false, ite_false] at hkv
      exact List.mem_cons_of_mem _ (ih k v hkv)

/-- Claim C9: (1) a normalized segment shorter than 20 characters is never
reported, whatever its frequency (so a 19-character segment repeated five
times yields nothing); (2) a segment of at least 20 characters occurring
exactly 3 times among the split, stripped and length-filtered section
segments is reported with occurrence count 3 and the deduplicated sorted
list of the titles of the sections where it appeared. -/
theorem C9_repetition_thresholds (h : String → Int) (sections : List DocSection)
    (seg : String) (hlen : 20 ≤ seg.length)
    (hocc : ((allSegs sections).filter (fun ts => ts.2 = seg)).length = 3) :
    (∀ (sections2 : List DocSection), ∀ r ∈ detectRepetitions h sections2,
        20 ≤ r.content.length) ∧
    ∃ r ∈ detectRepetitions h sections, r.content = seg ∧ r.count = 3 ∧
      r.locations = sortedUnique
        (((allSegs sections).filter (fun ts => ts.2 = seg)).map Prod.fst) := by
  constructor
  · intro sections2 r hr
    rw [detectRepetitions] at hr
    by_cases hempty : sections2.isEmpty
    · simp [hempty] at hr
    · simp only [hempty, Bool.false_eq_true, if_false, ite_false] at hr
      rcases List.mem_filterMap.mp hr with ⟨e, hem, he⟩
      by_cases h3 : 3 ≤ e.2.1
      · simp only [h3, if_true, ite_true, Option.some_inj] at he
        rw [← he]
        exact contentMap_min_length sections2 e hem
      · simp [h3] at he
  · have hlook := contentMap_fold_lookup seg (allSegs sections) []
    have hocc_ne : (allSegs sections).filter (fun ts => ts.2 = seg) ≠ [] := by
      intro hnil
      rw [hnil] at hocc
      simp at hocc
    have hsome : assocGet (contentMap sections) seg =
        some (3, ((allSegs sections).filter (fun ts => ts.2 = seg)).map Prod.fst) := by
      rw [contentMap, hlook]
      cases hoccl : (allSegs sections).filter (fun ts => ts.2 = seg) with
      | nil => exact absurd hoccl hocc_ne
      | cons a occ =>
        rw [hoccl] at hocc
        rw [show assocGet ([] : List (String × Nat × List String)) seg =
          (none : Option (Nat × List String)) from rfl]
        rw [accEntry_none_cons, hocc]
    have hmem := assocGet_mem (contentMap sections) seg _ hsome
    have hsecne : sections.isEmpty = false := by
      cases sections with
      | nil =>
        exfalso
        exact hocc_ne (by simp [allSegs])
      | cons a l => rfl
    refine ⟨{ conflict_id := "rep_" ++ toString (h seg).natAbs
              content := seg
              count := 3
              locations := sortedUnique
                (((allSegs sections).filter (fun ts => ts.2 = seg)).map Prod.fst) },
      ?_, rfl, rfl, rfl⟩
    rw [detectRepetitions]
    simp only [hsecne, Bool.false_eq_true, if_false, ite_false]
    refine List.mem_filterMap.mpr
      ⟨(seg, 3, ((allSegs sections).filter (fun ts => ts.2 = seg)).map Prod.fst),
        hmem, by simp⟩

/-- The three sections of the C9 witness: the same 21-character segment in
sections titled 乙, 甲, 乙. -/
def repSections : List DocSection :=
  [⟨some "乙", some "这是一个足够长的重复核心内容语句超过二十字"⟩,
   ⟨some "甲", some "这是一个足够长的重复核心内容语句超过二十字"⟩,
   ⟨some "乙", some "这是一个足够长的重复核心内容语句超过二十字"⟩]

/-- Witness for claim C9: the segment is reported with count 3 and the
sorted deduplicated titles. -/
theorem C9_repetition_thresholds_witness :
    ∃ r ∈ detectRepetitions (fun _ => 0) repSections,
      r.content = "这是一个足够长的重复核心内容语句超过二十字" ∧ r.count = 3 ∧
      r.locations = sortedUnique (((allSegs repSections).filter
        (fun ts => ts.2 = "这是一个足够长的重复核心内容语句超过二十字")).map Prod.fst) :=
  (C9_repetition_thresholds (fun _ => 0) repSections
    "这是一个足够长的重复核心内容语句超过二十字" (by decide) (by decide)).2

/-- Claim C1 counterexample: with values 100 and 105 (no percent marks,
equal polarities, empty times, shared key) the numeric rule DOES emit the
pair, and the structured stage returns exactly this pair, contradicting the
claim that the pair is excluded by the numeric rule.  Polarity and time
cannot fire here, so the emission comes from the numeric rule alone. -/
theorem C1_counterexample :
    numericDiverges (mkNumFact "a" 100) (mkNumFact "b" 105) 100 105 = true ∧
    genStructuredPairs [mkNumFact "a" 100, mkNumFact "b" 105] 300 =
      [(mkNumFact "a" 100, mkNumFact "b" 105)] :=
  ⟨by decide, by decide⟩

end FactGuardian
